import Mathlib

/-!
Verification of the chakra-orm schema/diff/migration core against its
natural-language specification.

The definitions below are a shallow embedding of the Rust source:

* `crates/chakra-schema/src/schema.rs` — schema data model,
* `crates/chakra-schema/src/ddl.rs` — DDL statements and the PostgreSQL generator,
* `crates/chakra-schema/src/diff.rs` — `SchemaDiff`, `SchemaDiffer`, `to_ddl`,
* `crates/chakra-core/src/sql.rs` — the MySQL dialect placeholder rewrite,
* `crates/chakra-pool/src/pool.rs` — connection-expiration predicate,
* `crates/chakra-migrate/src/{migration,planner,history,executor}.rs` — the
  migration engine.

Rust `HashMap`s are modelled as association lists (their iteration order is
fixed to insertion order, a determinization of the arbitrary iteration order;
the verified claims are insensitive to that order).  Machine integers are
modelled as `Nat`/`Int`; Rust `f64` is modelled by the inductive `F64`
(verified claims depend only on the class of the float — finite with a fixed
decimal rendering, NaN, or an infinity — never on float arithmetic).
Wall-clock readings (`Instant::now`, `Utc::now`) are modelled as the constant
0, and the random UUID of a migration lock as a constant string; no verified
claim depends on either value.
-/

/-- Foreign-key referential action, from `chakra-core/src/model.rs`. -/
inductive ForeignKeyAction where
  | NoAction
  | Cascade
  | SetNull
  | SetDefault
  | Restrict
deriving DecidableEq, Repr

/-- SQL rendering of a referential action (`ForeignKeyAction::as_sql`). -/
def ForeignKeyAction.as_sql : ForeignKeyAction → String
  | .NoAction => "NO ACTION"
  | .Cascade => "CASCADE"
  | .SetNull => "SET NULL"
  | .SetDefault => "SET DEFAULT"
  | .Restrict => "RESTRICT"

/-- Model of a Rust `f64` value: a finite float is identified by its decimal
rendering (the output of Rust's float formatting), and the non-finite classes
are explicit.  No claim verified here performs float arithmetic. -/
inductive F64 where
  | finite (repr : String)
  | nan
  | inf
  | negInf
deriving DecidableEq, Repr

/-- Rust `Display` for `f64` (`{}` formatting): finite floats print their
decimal rendering, `NaN` prints `NaN`, infinities print `inf`/`-inf`. -/
def F64.display : F64 → String
  | .finite r => r
  | .nan => "NaN"
  | .inf => "inf"
  | .negInf => "-inf"

/-- Leftmost non-overlapping replace-all on character lists, the semantics of
Rust `str::replace`: at each position, if the (non-empty) pattern matches,
emit the replacement and skip past the match, otherwise keep the character.
The fuel argument makes the recursion structural; `fuel = length of the list`
always suffices, since every step consumes at least one character and one
unit of fuel. -/
def replace_fuel (pat rep : List Char) : Nat → List Char → List Char
  | 0, l => l
  | _ + 1, [] => []
  | fuel + 1, c :: rest =>
      if pat ≠ [] ∧ pat.isPrefixOf (c :: rest) then
        rep ++ replace_fuel pat rep fuel ((c :: rest).drop pat.length)
      else
        c :: replace_fuel pat rep fuel rest

/-- Rust `str::replace` on `String`s (all our uses have non-empty patterns). -/
def rust_replace (s pat rep : String) : String :=
  String.mk (replace_fuel pat.data rep.data s.data.length s.data)

/-- Column types, from `chakra-schema/src/schema.rs` (`ColumnType`). -/
inductive ColumnType where
  | SmallInt
  | Integer
  | BigInt
  | Decimal (precision : Nat) (scale : Nat)
  | Real
  | DoublePrecision
  | Char (len : Nat)
  | Varchar (len : Option Nat)
  | Text
  | Boolean
  | Date
  | Time (with_timezone : Bool)
  | Timestamp (with_timezone : Bool)
  | Interval
  | Uuid
  | Json
  | Jsonb
  | Bytea
  | Array (inner : ColumnType)
  | Custom (name : String)
  | Serial
  | BigSerial
deriving DecidableEq, Repr

/-- PostgreSQL rendering of a column type (`ColumnType::to_postgres_sql`). -/
def ColumnType.to_postgres_sql : ColumnType → String
  | .SmallInt => "SMALLINT"
  | .Integer => "INTEGER"
  | .BigInt => "BIGINT"
  | .Decimal precision scale =>
      "DECIMAL(" ++ toString precision ++ ", " ++ toString scale ++ ")"
  | .Real => "REAL"
  | .DoublePrecision => "DOUBLE PRECISION"
  | .Char len => "CHAR(" ++ toString len ++ ")"
  | .Varchar (some len) => "VARCHAR(" ++ toString len ++ ")"
  | .Varchar none => "VARCHAR"
  | .Text => "TEXT"
  | .Boolean => "BOOLEAN"
  | .Date => "DATE"
  | .Time with_timezone => if with_timezone then "TIME WITH TIME ZONE" else "TIME"
  | .Timestamp with_timezone =>
      if with_timezone then "TIMESTAMP WITH TIME ZONE" else "TIMESTAMP"
  | .Interval => "INTERVAL"
  | .Uuid => "UUID"
  | .Json => "JSON"
  | .Jsonb => "JSONB"
  | .Bytea => "BYTEA"
  | .Array inner => inner.to_postgres_sql ++ "[]"
  | .Custom name => name
  | .Serial => "SERIAL"
  | .BigSerial => "BIGSERIAL"

/-- Abbreviation for `String`, needed because `ColumnDefault` has a
constructor named `String` that shadows the type inside its own declaration. -/
abbrev Str := String

/-- Column default values (`ColumnDefault` in `schema.rs`). -/
inductive ColumnDefault where
  | Null
  | Boolean (b : Bool)
  | Integer (i : Int)
  | Float (f : F64)
  | String (s : Str)
  | Expression (e : Str)
  | CurrentTimestamp
  | GenerateUuid
deriving DecidableEq, Repr

/-- SQL rendering of a default value (`ColumnDefault::to_sql`). -/
def ColumnDefault.to_sql : ColumnDefault → Str
  | .Null => "NULL"
  | .Boolean b => if b then "TRUE" else "FALSE"
  | .Integer i => toString i
  | .Float f => f.display
  | .String s => "\x27" ++ (rust_replace s "\x27" "\x27\x27") ++ "\x27"
  | .Expression e => e
  | .CurrentTimestamp => "CURRENT_TIMESTAMP"
  | .GenerateUuid => "gen_random_uuid()"

/-- A table column (`Column` in `schema.rs`). -/
structure Column where
  name : String
  column_type : ColumnType
  nullable : Bool
  default : Option ColumnDefault
  auto_increment : Bool
  comment : Option String
deriving DecidableEq, Repr

/-- Primary key definition (`PrimaryKey` in `schema.rs`). -/
structure PrimaryKey where
  name : Option String
  columns : List String
deriving DecidableEq, Repr

/-- Index sort order (`IndexOrder`). -/
inductive IndexOrder where
  | Asc
  | Desc
deriving DecidableEq, Repr

/-- Nulls ordering in an index (`NullsOrder`). -/
inductive NullsOrder where
  | First
  | Last
deriving DecidableEq, Repr

/-- Column of an index (`IndexColumn`). -/
structure IndexColumn where
  name : String
  order : Option IndexOrder
  nulls : Option NullsOrder
deriving DecidableEq, Repr

/-- Index definition (`Index` in `schema.rs`). -/
structure Index where
  name : String
  columns : List IndexColumn
  unique : Bool
  method : Option String
  where_clause : Option String
deriving DecidableEq, Repr

/-- Constraint payload (`ConstraintType`). -/
inductive ConstraintType where
  | Unique (columns : List String)
  | Check (expression : String)
  | Exclusion (expression : String)
deriving DecidableEq, Repr

/-- Named constraint (`Constraint`). -/
structure Constraint where
  name : String
  constraint_type : ConstraintType
deriving DecidableEq, Repr

/-- Foreign key definition (`ForeignKey` in `schema.rs`). -/
structure ForeignKey where
  name : Option String
  columns : List String
  references_table : String
  references_columns : List String
  on_delete : ForeignKeyAction
  on_update : ForeignKeyAction
deriving DecidableEq, Repr

/-- A table (`Table` in `schema.rs`). -/
structure Table where
  name : String
  schema : Option String
  columns : List Column
  primary_key : Option PrimaryKey
  indexes : List Index
  constraints : List Constraint
  foreign_keys : List ForeignKey
  comment : Option String
deriving DecidableEq, Repr

/-- A schema (`Schema` in `schema.rs`).  The Rust `HashMap<String, Table>` is
modelled as an association list whose keys are unique (the `HashMap` key
invariant); iteration order is fixed to list order. -/
structure Schema where
  name : Option String
  tables : List (String × Table)
  extensions : List String
deriving DecidableEq, Repr

/-- The empty schema (`Schema::new`). -/
def Schema.new : Schema := { name := none, tables := [], extensions := [] }

/-- Quote a PostgreSQL identifier (`quote_identifier` in `ddl.rs`):
double quotes, with embedded double quotes doubled. -/
def quote_identifier (name : String) : String :=
  "\"" ++ (rust_replace name "\"" "\"\"") ++ "\""

/-- A generated DDL statement (`DdlStatement` in `ddl.rs`). -/
structure DdlStatement where
  sql : String
  reversible : Bool
  reverse_sql : Option String
  description : Option String
deriving DecidableEq, Repr

/-- Constructor `DdlStatement::new`. -/
def DdlStatement.mk_new (sql : String) : DdlStatement :=
  { sql := sql, reversible := false, reverse_sql := none, description := none }

/-- Builder `DdlStatement::reversible`. -/
def DdlStatement.set_reversible (s : DdlStatement) (reverse_sql : String) : DdlStatement :=
  { s with reversible := true, reverse_sql := some reverse_sql }

/-- Builder `DdlStatement::description`. -/
def DdlStatement.set_description (s : DdlStatement) (d : String) : DdlStatement :=
  { s with description := some d }

namespace PostgresDdlGenerator

/-- Column definition fragment (`PostgresDdlGenerator::column_definition`). -/
def column_definition (column : Column) : String :=
  quote_identifier column.name ++ " " ++ column.column_type.to_postgres_sql
    ++ (if column.nullable then "" else " NOT NULL")
    ++ (match column.default with
        | some d => " DEFAULT " ++ d.to_sql
        | none => "")

/-- Constraint fragment (`PostgresDdlGenerator::constraint_definition`). -/
def constraint_definition (c : Constraint) : String :=
  match c.constraint_type with
  | .Unique columns =>
      "CONSTRAINT " ++ quote_identifier c.name ++ " UNIQUE ("
        ++ String.intercalate ", " (columns.map quote_identifier) ++ ")"
  | .Check expression =>
      "CONSTRAINT " ++ quote_identifier c.name ++ " CHECK (" ++ expression ++ ")"
  | .Exclusion expression =>
      "CONSTRAINT " ++ quote_identifier c.name ++ " EXCLUDE (" ++ expression ++ ")"

/-- Foreign-key fragment (`PostgresDdlGenerator::foreign_key_definition`). -/
def foreign_key_definition (fk : ForeignKey) : String :=
  (match fk.name with
   | some n => "CONSTRAINT " ++ quote_identifier n ++ " "
   | none => "")
  ++ "FOREIGN KEY (" ++ String.intercalate ", " (fk.columns.map quote_identifier)
  ++ ") REFERENCES " ++ quote_identifier fk.references_table
  ++ " (" ++ String.intercalate ", " (fk.references_columns.map quote_identifier) ++ ")"
  ++ (if fk.on_delete = ForeignKeyAction.NoAction then ""
      else " ON DELETE " ++ fk.on_delete.as_sql)
  ++ (if fk.on_update = ForeignKeyAction.NoAction then ""
      else " ON UPDATE " ++ fk.on_update.as_sql)

/-- `PostgresDdlGenerator::create_table`: columns, then the primary key, then
table constraints, then (inline) foreign-key clauses. -/
def create_table (table : Table) : DdlStatement :=
  let parts : List String :=
    table.columns.map (fun c => "    " ++ column_definition c)
      ++ (match table.primary_key with
          | some pk =>
              let cols := String.intercalate ", " (pk.columns.map quote_identifier)
              [match pk.name with
               | some n => "    CONSTRAINT " ++ quote_identifier n ++ " PRIMARY KEY (" ++ cols ++ ")"
               | none => "    PRIMARY KEY (" ++ cols ++ ")"]
          | none => [])
      ++ table.constraints.map (fun c => "    " ++ constraint_definition c)
      ++ table.foreign_keys.map (fun fk => "    " ++ foreign_key_definition fk)
  let sql := "CREATE TABLE " ++ quote_identifier table.name ++ " (\n"
      ++ String.intercalate ",\n" parts ++ "\n)"
  let drop_sql := "DROP TABLE " ++ quote_identifier table.name
  ((DdlStatement.mk_new sql).set_reversible drop_sql).set_description
    ("Create table " ++ table.name)

/-- `PostgresDdlGenerator::drop_table`. -/
def drop_table (table_name : String) (cascade : Bool) : DdlStatement :=
  let sql := if cascade then "DROP TABLE " ++ quote_identifier table_name ++ " CASCADE"
             else "DROP TABLE " ++ quote_identifier table_name
  (DdlStatement.mk_new sql).set_description ("Drop table " ++ table_name)

/-- `PostgresDdlGenerator::add_column`. -/
def add_column (table_name : String) (column : Column) : DdlStatement :=
  let sql := "ALTER TABLE " ++ quote_identifier table_name ++ " ADD COLUMN "
      ++ column_definition column
  let reverse_sql := "ALTER TABLE " ++ quote_identifier table_name ++ " DROP COLUMN "
      ++ quote_identifier column.name
  ((DdlStatement.mk_new sql).set_reversible reverse_sql).set_description
    ("Add column " ++ column.name ++ " to " ++ table_name)

/-- `PostgresDdlGenerator::drop_column`. -/
def drop_column (table_name : String) (column_name : String) : DdlStatement :=
  (DdlStatement.mk_new ("ALTER TABLE " ++ quote_identifier table_name
      ++ " DROP COLUMN " ++ quote_identifier column_name)).set_description
    ("Drop column " ++ column_name ++ " from " ++ table_name)

/-- `PostgresDdlGenerator::alter_column`: rename step (when names differ),
then type change, then nullability change, then default change. -/
def alter_column (table_name : String) (old : Column) (new : Column) : List DdlStatement :=
  let table := quote_identifier table_name
  let column := quote_identifier new.name
  (if old.name ≠ new.name then
    [((DdlStatement.mk_new ("ALTER TABLE " ++ table ++ " RENAME COLUMN "
        ++ quote_identifier old.name ++ " TO " ++ column)).set_reversible
        ("ALTER TABLE " ++ table ++ " RENAME COLUMN " ++ column ++ " TO "
          ++ quote_identifier old.name)).set_description
        ("Rename column " ++ old.name ++ " to " ++ new.name ++ " in " ++ table_name)]
   else [])
  ++ (if old.column_type ≠ new.column_type then
    let type_sql := new.column_type.to_postgres_sql
    [(DdlStatement.mk_new ("ALTER TABLE " ++ table ++ " ALTER COLUMN " ++ column
        ++ " TYPE " ++ type_sql ++ " USING " ++ column ++ "::" ++ type_sql)).set_description
        ("Change type of " ++ new.name ++ " in " ++ table_name ++ " to " ++ type_sql)]
   else [])
  ++ (if old.nullable ≠ new.nullable then
    if new.nullable then
      [((DdlStatement.mk_new ("ALTER TABLE " ++ table ++ " ALTER COLUMN " ++ column
          ++ " DROP NOT NULL")).set_reversible
          ("ALTER TABLE " ++ table ++ " ALTER COLUMN " ++ column ++ " SET NOT NULL")
        ).set_description ("Make " ++ new.name ++ " nullable in " ++ table_name)]
    else
      [((DdlStatement.mk_new ("ALTER TABLE " ++ table ++ " ALTER COLUMN " ++ column
          ++ " SET NOT NULL")).set_reversible
          ("ALTER TABLE " ++ table ++ " ALTER COLUMN " ++ column ++ " DROP NOT NULL")
        ).set_description ("Make " ++ new.name ++ " not null in " ++ table_name)]
   else [])
  ++ (if old.default ≠ new.default then
    match new.default with
    | some d =>
      [(DdlStatement.mk_new ("ALTER TABLE " ++ table ++ " ALTER COLUMN " ++ column
          ++ " SET DEFAULT " ++ d.to_sql)).set_description
          ("Set default for " ++ new.name ++ " in " ++ table_name)]
    | none =>
      [(DdlStatement.mk_new ("ALTER TABLE " ++ table ++ " ALTER COLUMN " ++ column
          ++ " DROP DEFAULT")).set_description
          ("Drop default for " ++ new.name ++ " in " ++ table_name)]
   else [])

/-- `PostgresDdlGenerator::create_index`. -/
def create_index (table_name : String) (index : Index) : DdlStatement :=
  let cols := String.intercalate ", " (index.columns.map (fun c =>
    quote_identifier c.name
      ++ (match c.order with
          | some .Asc => " ASC"
          | some .Desc => " DESC"
          | none => "")
      ++ (match c.nulls with
          | some .First => " NULLS FIRST"
          | some .Last => " NULLS LAST"
          | none => "")))
  let sql := (if index.unique then "CREATE UNIQUE INDEX " else "CREATE INDEX ")
      ++ quote_identifier index.name ++ " ON " ++ quote_identifier table_name
      ++ (match index.method with
          | some m => " USING " ++ m
          | none => "")
      ++ " (" ++ cols ++ ")"
      ++ (match index.where_clause with
          | some w => " WHERE " ++ w
          | none => "")
  let drop_sql := "DROP INDEX " ++ quote_identifier index.name
  ((DdlStatement.mk_new sql).set_reversible drop_sql).set_description
    ("Create index " ++ index.name ++ " on " ++ table_name)

/-- `PostgresDdlGenerator::drop_index`. -/
def drop_index (index_name : String) : DdlStatement :=
  (DdlStatement.mk_new ("DROP INDEX " ++ quote_identifier index_name)).set_description
    ("Drop index " ++ index_name)

/-- `PostgresDdlGenerator::add_constraint`. -/
def add_constraint (table_name : String) (c : Constraint) : DdlStatement :=
  let sql := "ALTER TABLE " ++ quote_identifier table_name ++ " ADD "
      ++ constraint_definition c
  let reverse_sql := "ALTER TABLE " ++ quote_identifier table_name
      ++ " DROP CONSTRAINT " ++ quote_identifier c.name
  ((DdlStatement.mk_new sql).set_reversible reverse_sql).set_description
    ("Add constraint " ++ c.name ++ " to " ++ table_name)

/-- `PostgresDdlGenerator::drop_constraint`. -/
def drop_constraint (table_name : String) (constraint_name : String) : DdlStatement :=
  (DdlStatement.mk_new ("ALTER TABLE " ++ quote_identifier table_name
      ++ " DROP CONSTRAINT " ++ quote_identifier constraint_name)).set_description
    ("Drop constraint " ++ constraint_name ++ " from " ++ table_name)

/-- `PostgresDdlGenerator::add_foreign_key`. -/
def add_foreign_key (table_name : String) (fk : ForeignKey) : DdlStatement :=
  let sql := "ALTER TABLE " ++ quote_identifier table_name ++ " ADD "
      ++ foreign_key_definition fk
  let fk_name := match fk.name with
    | some n => n
    | none => "fk_" ++ table_name ++ "_" ++ String.intercalate "_" fk.columns
  let reverse_sql := "ALTER TABLE " ++ quote_identifier table_name
      ++ " DROP CONSTRAINT " ++ quote_identifier fk_name
  ((DdlStatement.mk_new sql).set_reversible reverse_sql).set_description
    ("Add foreign key on " ++ table_name ++ " referencing " ++ fk.references_table)

/-- `PostgresDdlGenerator::drop_foreign_key`. -/
def drop_foreign_key (table_name : String) (fk_name : String) : DdlStatement :=
  (DdlStatement.mk_new ("ALTER TABLE " ++ quote_identifier table_name
      ++ " DROP CONSTRAINT " ++ quote_identifier fk_name)).set_description
    ("Drop foreign key " ++ fk_name ++ " from " ++ table_name)

/-- `PostgresDdlGenerator::rename_table`. -/
def rename_table (old_name : String) (new_name : String) : DdlStatement :=
  ((DdlStatement.mk_new ("ALTER TABLE " ++ quote_identifier old_name
      ++ " RENAME TO " ++ quote_identifier new_name)).set_reversible
      ("ALTER TABLE " ++ quote_identifier new_name ++ " RENAME TO "
        ++ quote_identifier old_name)).set_description
    ("Rename table " ++ old_name ++ " to " ++ new_name)

/-- `PostgresDdlGenerator::rename_column`. -/
def rename_column (table_name : String) (old_name : String) (new_name : String) :
    DdlStatement :=
  ((DdlStatement.mk_new ("ALTER TABLE " ++ quote_identifier table_name
      ++ " RENAME COLUMN " ++ quote_identifier old_name ++ " TO "
      ++ quote_identifier new_name)).set_reversible
      ("ALTER TABLE " ++ quote_identifier table_name ++ " RENAME COLUMN "
        ++ quote_identifier new_name ++ " TO " ++ quote_identifier old_name)
    ).set_description
    ("Rename column " ++ old_name ++ " to " ++ new_name ++ " in " ++ table_name)

end PostgresDdlGenerator

/-- The dialect-parameterized DDL generator interface (`trait DdlGenerator` in
`ddl.rs`).  The statement type is a parameter: `to_ddl` never inspects the
statements a generator returns, so the embedding is polymorphic in it
(instantiated at `DdlStatement` for the PostgreSQL generator and at the
call-recording type `DdlCall` for provenance arguments). -/
structure DdlGen (σ : Type) where
  create_table : Table → σ
  drop_table : String → Bool → σ
  add_column : String → Column → σ
  drop_column : String → String → σ
  alter_column : String → Column → Column → List σ
  create_index : String → Index → σ
  drop_index : String → σ
  add_constraint : String → Constraint → σ
  drop_constraint : String → String → σ
  add_foreign_key : String → ForeignKey → σ
  drop_foreign_key : String → String → σ
  rename_table : String → String → σ
  rename_column : String → String → String → σ

/-- The PostgreSQL generator bundled as a `DdlGen` (the `DdlGenerator`
implementation of `PostgresDdlGenerator`). -/
def postgresGen : DdlGen DdlStatement :=
  { create_table := PostgresDdlGenerator.create_table
    drop_table := PostgresDdlGenerator.drop_table
    add_column := PostgresDdlGenerator.add_column
    drop_column := PostgresDdlGenerator.drop_column
    alter_column := PostgresDdlGenerator.alter_column
    create_index := PostgresDdlGenerator.create_index
    drop_index := PostgresDdlGenerator.drop_index
    add_constraint := PostgresDdlGenerator.add_constraint
    drop_constraint := PostgresDdlGenerator.drop_constraint
    add_foreign_key := PostgresDdlGenerator.add_foreign_key
    drop_foreign_key := PostgresDdlGenerator.drop_foreign_key
    rename_table := PostgresDdlGenerator.rename_table
    rename_column := PostgresDdlGenerator.rename_column }

/-- A record of one generator invocation: which `DdlGenerator` method `to_ddl`
called, with its arguments.  Used to state provenance/ordering properties of
the statement list. -/
inductive DdlCall where
  | create_table (table : Table)
  | drop_table (name : String) (cascade : Bool)
  | add_column (table : String) (column : Column)
  | drop_column (table : String) (column : String)
  | alter_column (table : String) (old : Column) (new : Column)
  | create_index (table : String) (index : Index)
  | drop_index (name : String)
  | add_constraint (table : String) (c : Constraint)
  | drop_constraint (table : String) (name : String)
  | add_foreign_key (table : String) (fk : ForeignKey)
  | drop_foreign_key (table : String) (name : String)
  | rename_table (from_name : String) (to_name : String)
  | rename_column (table : String) (from_name : String) (to_name : String)
deriving DecidableEq, Repr

/-- The call-recording generator: each method returns the record of its own
invocation. -/
def freeGen : DdlGen DdlCall :=
  { create_table := DdlCall.create_table
    drop_table := DdlCall.drop_table
    add_column := DdlCall.add_column
    drop_column := DdlCall.drop_column
    alter_column := fun t a b => [DdlCall.alter_column t a b]
    create_index := DdlCall.create_index
    drop_index := DdlCall.drop_index
    add_constraint := DdlCall.add_constraint
    drop_constraint := DdlCall.drop_constraint
    add_foreign_key := DdlCall.add_foreign_key
    drop_foreign_key := DdlCall.drop_foreign_key
    rename_table := DdlCall.rename_table
    rename_column := DdlCall.rename_column }

/-- Differences for a single table (`TableDiff` in `diff.rs`). -/
structure TableDiff where
  table_name : String
  rename_to : Option String
  columns_to_add : List Column
  columns_to_drop : List String
  columns_to_modify : List (Column × Column)
  indexes_to_create : List Index
  indexes_to_drop : List String
  constraints_to_add : List Constraint
  constraints_to_drop : List String
  foreign_keys_to_add : List ForeignKey
  foreign_keys_to_drop : List String
deriving DecidableEq, Repr

/-- Constructor `TableDiff::new`. -/
def TableDiff.mk_new (table_name : String) : TableDiff :=
  { table_name := table_name, rename_to := none, columns_to_add := []
    columns_to_drop := [], columns_to_modify := [], indexes_to_create := []
    indexes_to_drop := [], constraints_to_add := [], constraints_to_drop := []
    foreign_keys_to_add := [], foreign_keys_to_drop := [] }

/-- `TableDiff::is_empty`. -/
def TableDiff.is_empty (d : TableDiff) : Bool :=
  d.rename_to.isNone && d.columns_to_add.isEmpty && d.columns_to_drop.isEmpty
    && d.columns_to_modify.isEmpty && d.indexes_to_create.isEmpty
    && d.indexes_to_drop.isEmpty && d.constraints_to_add.isEmpty
    && d.constraints_to_drop.isEmpty && d.foreign_keys_to_add.isEmpty
    && d.foreign_keys_to_drop.isEmpty

/-- A difference between two schemas (`SchemaDiff` in `diff.rs`). -/
structure SchemaDiff where
  tables_to_create : List Table
  tables_to_drop : List String
  table_modifications : List TableDiff
deriving DecidableEq, Repr

/-- `SchemaDiff::is_empty`. -/
def SchemaDiff.is_empty (d : SchemaDiff) : Bool :=
  d.tables_to_create.isEmpty && d.tables_to_drop.isEmpty
    && d.table_modifications.isEmpty

/-- `to_ddl`, step 1 (diff.rs lines 33-38): drop foreign keys of modified
tables first. -/
def SchemaDiff.to_ddl_drop_fks {σ : Type} (self : SchemaDiff) (g : DdlGen σ) : List σ :=
  self.table_modifications.flatMap (fun td =>
    td.foreign_keys_to_drop.map (fun fk_name => g.drop_foreign_key td.table_name fk_name))

/-- `to_ddl`, step 2 (diff.rs lines 40-43): drop tables (cascade). -/
def SchemaDiff.to_ddl_drop_tables {σ : Type} (self : SchemaDiff) (g : DdlGen σ) : List σ :=
  self.tables_to_drop.map (fun table_name => g.drop_table table_name true)

/-- `to_ddl`, step 3 (diff.rs lines 45-52): create each new table, then its
indexes. -/
def SchemaDiff.to_ddl_create_tables {σ : Type} (self : SchemaDiff) (g : DdlGen σ) : List σ :=
  self.tables_to_create.flatMap (fun table =>
    g.create_table table :: table.indexes.map (fun index => g.create_index table.name index))

/-- `to_ddl`, step 4 (diff.rs lines 54-95): per modified table — rename,
drop indexes, drop constraints, drop columns, add columns, alter columns,
create indexes, add constraints.  (The `if let Some` on `rename_to` is
written with `Option.map`/`Option.toList`.) -/
def SchemaDiff.to_ddl_modifications {σ : Type} (self : SchemaDiff) (g : DdlGen σ) : List σ :=
  self.table_modifications.flatMap (fun td =>
    (td.rename_to.map (fun new_name => g.rename_table td.table_name new_name)).toList
      ++ td.indexes_to_drop.map (fun index_name => g.drop_index index_name)
      ++ td.constraints_to_drop.map (fun c => g.drop_constraint td.table_name c)
      ++ td.columns_to_drop.map (fun c => g.drop_column td.table_name c)
      ++ td.columns_to_add.map (fun c => g.add_column td.table_name c)
      ++ td.columns_to_modify.flatMap (fun p => g.alter_column td.table_name p.1 p.2)
      ++ td.indexes_to_create.map (fun index => g.create_index td.table_name index)
      ++ td.constraints_to_add.map (fun c => g.add_constraint td.table_name c))

/-- `to_ddl`, step 5 (diff.rs lines 97-102): add foreign keys of modified
tables. -/
def SchemaDiff.to_ddl_add_fks_modified {σ : Type} (self : SchemaDiff) (g : DdlGen σ) : List σ :=
  self.table_modifications.flatMap (fun td =>
    td.foreign_keys_to_add.map (fun fk => g.add_foreign_key td.table_name fk))

/-- `to_ddl`, step 6 (diff.rs lines 104-109): add foreign keys of newly
created tables. -/
def SchemaDiff.to_ddl_add_fks_new {σ : Type} (self : SchemaDiff) (g : DdlGen σ) : List σ :=
  self.tables_to_create.flatMap (fun table =>
    table.foreign_keys.map (fun fk => g.add_foreign_key table.name fk))

/-- `SchemaDiff::to_ddl` (diff.rs lines 30-112): the six steps in order. -/
def SchemaDiff.to_ddl {σ : Type} (self : SchemaDiff) (g : DdlGen σ) : List σ :=
  self.to_ddl_drop_fks g ++ self.to_ddl_drop_tables g ++ self.to_ddl_create_tables g
    ++ self.to_ddl_modifications g ++ self.to_ddl_add_fks_modified g
    ++ self.to_ddl_add_fks_new g

/-- Position of each call kind in the `to_ddl` phase ordering: FK drops (0)
come before table drops (1); everything else (2) precedes FK additions (3). -/
def DdlCall.rank : DdlCall → Nat
  | .drop_foreign_key _ _ => 0
  | .drop_table _ _ => 1
  | .add_foreign_key _ _ => 3
  | _ => 2

/-- Recognizer for `drop_foreign_key` calls. -/
def DdlCall.is_drop_fk : DdlCall → Bool
  | .drop_foreign_key _ _ => true
  | _ => false

/-- Recognizer for `drop_table` calls. -/
def DdlCall.is_drop_table : DdlCall → Bool
  | .drop_table _ _ => true
  | _ => false

/-- Recognizer for `create_table` calls. -/
def DdlCall.is_create_table : DdlCall → Bool
  | .create_table _ => true
  | _ => false

/-- Recognizer for `add_column` calls. -/
def DdlCall.is_add_column : DdlCall → Bool
  | .add_column _ _ => true
  | _ => false

/-- Recognizer for `add_foreign_key` calls. -/
def DdlCall.is_add_fk : DdlCall → Bool
  | .add_foreign_key _ _ => true
  | _ => false

/-- A drop-FK call has rank 0. -/
lemma DdlCall.rank_of_is_drop_fk {c : DdlCall} (h : c.is_drop_fk = true) : c.rank = 0 := by
  cases c <;> simp_all [DdlCall.is_drop_fk, DdlCall.rank]

/-- A drop-table call has rank 1. -/
lemma DdlCall.rank_of_is_drop_table {c : DdlCall} (h : c.is_drop_table = true) : c.rank = 1 := by
  cases c <;> simp_all [DdlCall.is_drop_table, DdlCall.rank]

/-- A create-table call has rank 2. -/
lemma DdlCall.rank_of_is_create_table {c : DdlCall} (h : c.is_create_table = true) :
    c.rank = 2 := by
  cases c <;> simp_all [DdlCall.is_create_table, DdlCall.rank]

/-- An add-column call has rank 2. -/
lemma DdlCall.rank_of_is_add_column {c : DdlCall} (h : c.is_add_column = true) : c.rank = 2 := by
  cases c <;> simp_all [DdlCall.is_add_column, DdlCall.rank]

/-- An add-FK call has rank 3. -/
lemma DdlCall.rank_of_is_add_fk {c : DdlCall} (h : c.is_add_fk = true) : c.rank = 3 := by
  cases c <;> simp_all [DdlCall.is_add_fk, DdlCall.rank]

/-- Every call in `to_ddl` step 1 is a `drop_foreign_key` (rank 0). -/
lemma to_ddl_drop_fks_rank (d : SchemaDiff) :
    ∀ x ∈ d.to_ddl_drop_fks freeGen, x.rank = 0 := by
  intro x hx
  simp only [SchemaDiff.to_ddl_drop_fks, List.mem_flatMap, List.mem_map] at hx
  obtain ⟨td, -, n, -, rfl⟩ := hx
  rfl

/-- Every call in `to_ddl` step 2 is a `drop_table` (rank 1). -/
lemma to_ddl_drop_tables_rank (d : SchemaDiff) :
    ∀ x ∈ d.to_ddl_drop_tables freeGen, x.rank = 1 := by
  intro x hx
  simp only [SchemaDiff.to_ddl_drop_tables, List.mem_map] at hx
  obtain ⟨n, -, rfl⟩ := hx
  rfl

/-- Every call in `to_ddl` step 3 is a `create_table` or `create_index` (rank 2). -/
lemma to_ddl_create_tables_rank (d : SchemaDiff) :
    ∀ x ∈ d.to_ddl_create_tables freeGen, x.rank = 2 := by
  intro x hx
  simp only [SchemaDiff.to_ddl_create_tables, List.mem_flatMap, List.mem_cons,
    List.mem_map] at hx
  obtain ⟨t, -, h⟩ := hx
  rcases h with rfl | ⟨i, -, rfl⟩ <;> rfl

/-- Every call in `to_ddl` step 4 (table modifications) has rank 2. -/
lemma to_ddl_modifications_rank (d : SchemaDiff) :
    ∀ x ∈ d.to_ddl_modifications freeGen, x.rank = 2 := by
  intro x hx
  simp only [SchemaDiff.to_ddl_modifications, List.mem_flatMap, List.mem_append,
    List.mem_map, Option.mem_toList, Option.mem_def, Option.map_eq_some'] at hx
  obtain ⟨td, -, h⟩ := hx
  rcases h with ((((((⟨n, -, rfl⟩ | ⟨n, -, rfl⟩) | ⟨c, -, rfl⟩) | ⟨c, -, rfl⟩) |
    ⟨c, -, rfl⟩) | h) | ⟨i, -, rfl⟩) | ⟨c, -, rfl⟩
  · rfl
  · rfl
  · rfl
  · rfl
  · rfl
  · simp only [List.mem_flatMap, freeGen, List.mem_singleton] at h
    obtain ⟨p, -, rfl⟩ := h
    rfl
  · rfl
  · rfl

/-- Every call in `to_ddl` step 5 is an `add_foreign_key` (rank 3). -/
lemma to_ddl_add_fks_modified_rank (d : SchemaDiff) :
    ∀ x ∈ d.to_ddl_add_fks_modified freeGen, x.rank = 3 := by
  intro x hx
  simp only [SchemaDiff.to_ddl_add_fks_modified, List.mem_flatMap, List.mem_map] at hx
  obtain ⟨td, -, fk, -, rfl⟩ := hx
  rfl

/-- Every call in `to_ddl` step 6 is an `add_foreign_key` (rank 3). -/
lemma to_ddl_add_fks_new_rank (d : SchemaDiff) :
    ∀ x ∈ d.to_ddl_add_fks_new freeGen, x.rank = 3 := by
  intro x hx
  simp only [SchemaDiff.to_ddl_add_fks_new, List.mem_flatMap, List.mem_map] at hx
  obtain ⟨t, -, fk, -, rfl⟩ := hx
  rfl

/-- A list whose elements all have the same rank is pairwise rank-monotone. -/
lemma pairwise_rank_const {l : List DdlCall} {r : Nat} (h : ∀ x ∈ l, x.rank = r) :
    l.Pairwise (fun a b => a.rank ≤ b.rank) := by
  induction l with
  | nil => exact List.Pairwise.nil
  | cons a t ih =>
      refine List.Pairwise.cons (fun b hb => ?_)
        (ih (fun x hx => h x (List.mem_cons_of_mem _ hx)))
      rw [h a (List.mem_cons_self _ _), h b (List.mem_cons_of_mem _ hb)]

/-- Appending a low-ranked list before a high-ranked list preserves pairwise
rank monotonicity. -/
lemma pairwise_rank_append (r : Nat) (l2 : List DdlCall) {l1 : List DdlCall}
    (p1 : l1.Pairwise (fun a b => a.rank ≤ b.rank))
    (p2 : l2.Pairwise (fun a b => a.rank ≤ b.rank))
    (hub : ∀ x ∈ l1, x.rank ≤ r) (hlb : ∀ x ∈ l2, r ≤ x.rank) :
    (l1 ++ l2).Pairwise (fun a b => a.rank ≤ b.rank) := by
  rw [List.pairwise_append]
  exact ⟨p1, p2, fun a ha b hb => le_trans (hub a ha) (hlb b hb)⟩

/-- The full `to_ddl` call list is pairwise rank-monotone: FK drops, then
table drops, then creations/modifications, then FK additions. -/
lemma to_ddl_rank_pairwise (d : SchemaDiff) :
    (d.to_ddl freeGen).Pairwise (fun a b => a.rank ≤ b.rank) := by
  have h1 := to_ddl_drop_fks_rank d
  have h2 := to_ddl_drop_tables_rank d
  have h3 := to_ddl_create_tables_rank d
  have h4 := to_ddl_modifications_rank d
  have h5 := to_ddl_add_fks_modified_rank d
  have h6 := to_ddl_add_fks_new_rank d
  have p12 : ((d.to_ddl_drop_fks freeGen) ++ (d.to_ddl_drop_tables freeGen)).Pairwise
      (fun a b => a.rank ≤ b.rank) :=
    pairwise_rank_append 1 (d.to_ddl_drop_tables freeGen) (pairwise_rank_const h1) (pairwise_rank_const h2)
      (fun x hx => by rw [h1 x hx]; omega) (fun x hx => by rw [h2 x hx])
  have p123 := pairwise_rank_append 2 (d.to_ddl_create_tables freeGen) p12
    (pairwise_rank_const h3)
    (fun x hx => by
      rcases List.mem_append.mp hx with h | h
      · rw [h1 x h]; omega
      · rw [h2 x h]; omega)
    (fun x hx => by rw [h3 x hx])
  have p1234 := pairwise_rank_append 2 (d.to_ddl_modifications freeGen) p123
    (pairwise_rank_const h4)
    (fun x hx => by
      rcases List.mem_append.mp hx with h | h
      · rcases List.mem_append.mp h with h | h
        · rw [h1 x h]; omega
        · rw [h2 x h]; omega
      · rw [h3 x h])
    (fun x hx => by rw [h4 x hx])
  have p12345 := pairwise_rank_append 3
    (d.to_ddl_add_fks_modified freeGen) p1234
    (pairwise_rank_const h5)
    (fun x hx => by
      rcases List.mem_append.mp hx with h | h
      · rcases List.mem_append.mp h with h | h
        · rcases List.mem_append.mp h with h | h
          · rw [h1 x h]; omega
          · rw [h2 x h]; omega
        · rw [h3 x h]; omega
      · rw [h4 x h]; omega)
    (fun x hx => by rw [h5 x hx])
  have pAll := pairwise_rank_append 3 (d.to_ddl_add_fks_new freeGen) p12345
    (pairwise_rank_const h6)
    (fun x hx => by
      rcases List.mem_append.mp hx with h | h
      · rcases List.mem_append.mp h with h | h
        · rcases List.mem_append.mp h with h | h
          · rcases List.mem_append.mp h with h | h
            · rw [h1 x h]; omega
            · rw [h2 x h]; omega
          · rw [h3 x h]; omega
        · rw [h4 x h]; omega
      · rw [h5 x h])
    (fun x hx => by rw [h6 x hx])
  simpa [SchemaDiff.to_ddl, List.append_assoc] using pAll

/-- Claim C1: in the statement list produced by `SchemaDiff::to_ddl` (with the
generator calls recorded), every `drop_foreign_key` statement precedes every
`drop_table` statement, and every `add_foreign_key` statement comes after
every `create_table` and every `add_column` statement. -/
theorem to_ddl_fk_ordering (d : SchemaDiff) :
    (∀ i j : Fin (d.to_ddl freeGen).length,
        ((d.to_ddl freeGen).get i).is_drop_fk = true →
        ((d.to_ddl freeGen).get j).is_drop_table = true → (i : Nat) < (j : Nat)) ∧
    (∀ i j : Fin (d.to_ddl freeGen).length,
        (((d.to_ddl freeGen).get i).is_create_table = true ∨
          ((d.to_ddl freeGen).get i).is_add_column = true) →
        ((d.to_ddl freeGen).get j).is_add_fk = true → (i : Nat) < (j : Nat)) := by
  have hget := List.pairwise_iff_get.mp (to_ddl_rank_pairwise d)
  constructor
  · intro i j h1 h2
    have r1 := DdlCall.rank_of_is_drop_fk h1
    have r2 := DdlCall.rank_of_is_drop_table h2
    rcases lt_trichotomy (i : Nat) (j : Nat) with h | h | h
    · exact h
    · exfalso
      have : i = j := Fin.ext h
      rw [this, r2] at r1
      exact absurd r1 (by omega)
    · exfalso
      have := hget j i h
      rw [r1, r2] at this
      omega
  · intro i j h1 h2
    have r1 : ((d.to_ddl freeGen).get i).rank = 2 := by
      rcases h1 with h1 | h1
      · exact DdlCall.rank_of_is_create_table h1
      · exact DdlCall.rank_of_is_add_column h1
    have r2 := DdlCall.rank_of_is_add_fk h2
    rcases lt_trichotomy (i : Nat) (j : Nat) with h | h | h
    · exact h
    · exfalso
      have : i = j := Fin.ext h
      rw [this, r2] at r1
      exact absurd r1 (by omega)
    · exfalso
      have := hget j i h
      rw [r1, r2] at this
      omega

/-- Concrete column used in the C1 witness diff. -/
def c1_col : Column :=
  { name := "email", column_type := ColumnType.Text, nullable := true
    default := none, auto_increment := false, comment := none }

/-- Concrete foreign key used in the C1 witness diff. -/
def c1_fk : ForeignKey :=
  { name := none, columns := ["owner_id"], references_table := "users"
    references_columns := ["id"], on_delete := ForeignKeyAction.NoAction
    on_update := ForeignKeyAction.NoAction }

/-- Concrete new table used in the C1 witness diff. -/
def c1_table : Table :=
  { name := "posts", schema := none, columns := [], primary_key := none
    indexes := [], constraints := [], foreign_keys := [c1_fk], comment := none }

/-- Concrete table modification used in the C1 witness diff. -/
def c1_td : TableDiff :=
  { table_name := "accounts", rename_to := none, columns_to_add := [c1_col]
    columns_to_drop := [], columns_to_modify := [], indexes_to_create := []
    indexes_to_drop := [], constraints_to_add := [], constraints_to_drop := []
    foreign_keys_to_add := [], foreign_keys_to_drop := ["fk_accounts_owner"] }

/-- Concrete schema diff exercising all parts of the C1 ordering. -/
def c1_diff : SchemaDiff :=
  { tables_to_create := [c1_table], tables_to_drop := ["legacy"]
    table_modifications := [c1_td] }

/-- Witness for C1: on a concrete diff, the FK drop (index 0) precedes the
table drop (index 1), and both the table creation (index 2) and the column
addition (index 3) precede the FK addition (index 4). -/
theorem to_ddl_fk_ordering_witness : (0 : Nat) < 1 ∧ (2 : Nat) < 4 ∧ (3 : Nat) < 4 :=
  ⟨(to_ddl_fk_ordering c1_diff).1 ⟨0, by decide⟩ ⟨1, by decide⟩ (by decide) (by decide),
   (to_ddl_fk_ordering c1_diff).2 ⟨2, by decide⟩ ⟨4, by decide⟩ (Or.inl (by decide))
     (by decide),
   (to_ddl_fk_ordering c1_diff).2 ⟨3, by decide⟩ ⟨4, by decide⟩ (Or.inr (by decide))
     (by decide)⟩

/-- Concrete foreign key for the C2 failing input. -/
def c2_fk : ForeignKey :=
  { name := none, columns := ["user_id"], references_table := "users"
    references_columns := ["id"], on_delete := ForeignKeyAction.NoAction
    on_update := ForeignKeyAction.NoAction }

/-- Concrete new table with a foreign key (the C2 failing input). -/
def c2_posts : Table :=
  { name := "posts", schema := none
    columns := [{ name := "user_id", column_type := ColumnType.Integer
                  nullable := true, default := none, auto_increment := false
                  comment := none }]
    primary_key := none, indexes := [], constraints := [], foreign_keys := [c2_fk]
    comment := none }

/-- A diff whose only content is the creation of `c2_posts`. -/
def c2_diff : SchemaDiff :=
  { tables_to_create := [c2_posts], tables_to_drop := [], table_modifications := [] }

/-- Claim C2 (code bug, evaluated at the failing input): for a new table with
a foreign key, the PostgreSQL `create_table` statement text DOES contain the
foreign-key clause inline, and `to_ddl` nevertheless emits the same foreign
key again afterwards as a separate `add_foreign_key` statement — contradicting
the spec, which requires the CREATE TABLE text to omit FK clauses precisely
because they are emitted later. -/
theorem postgres_create_table_inlines_fks :
    "FOREIGN KEY (\"user_id\") REFERENCES \"users\" (\"id\")".data <:+:
        (PostgresDdlGenerator.create_table c2_posts).sql.data ∧
    SchemaDiff.to_ddl c2_diff postgresGen =
      [PostgresDdlGenerator.create_table c2_posts,
       PostgresDdlGenerator.add_foreign_key "posts" c2_fk] := by
  constructor
  · decide
  · rfl

/-- `Schema::get_table`: lookup of a table by name (`HashMap::get` on the
association-list model). -/
def Schema.get_table (s : Schema) (n : String) : Option Table :=
  (s.tables.find? (fun p => p.1 == n)).map Prod.snd

/-- Schema differ options (`SchemaDiffer` in `diff.rs`). -/
structure SchemaDiffer where
  ignore_column_order : Bool
  ignore_index_names : Bool
  exclude_tables : List String

/-- `SchemaDiffer::new` (all options off, nothing excluded — the `Default`). -/
def SchemaDiffer.mk_new : SchemaDiffer :=
  { ignore_column_order := false, ignore_index_names := false, exclude_tables := [] }

/-- `SchemaDiffer::columns_differ`: two columns differ iff their type,
nullability, or rendered default SQL differs. -/
def SchemaDiffer.columns_differ (_self : SchemaDiffer) (cfrom cto : Column) : Bool :=
  if cfrom.column_type = cto.column_type then
    if cfrom.nullable = cto.nullable then
      match cfrom.default, cto.default with
      | none, none => false
      | some _, none => true
      | none, some _ => true
      | some a, some b => a.to_sql != b.to_sql
    else true
  else true

/-- Synthetic key of a foreign key in the diff (`diff.rs` lines 332-353):
its name, or `fk_{table}_{columns joined by _}` when unnamed. -/
def fk_diff_key (t : Table) (fk : ForeignKey) : String :=
  match fk.name with
  | some n => n
  | none => "fk_" ++ t.name ++ "_" ++ String.intercalate "_" fk.columns

/-- `SchemaDiffer::diff_tables`: name-keyed set differences on columns,
indexes, constraints and foreign keys; the intersection of column names
yields modifications via `columns_differ`.  Rust's `HashSet` differences and
intersections are modelled as filters over the name lists (iteration order
fixed); `HashMap` indexing is modelled by `find?`. -/
def SchemaDiffer.diff_tables (self : SchemaDiffer) (tfrom tto : Table) : TableDiff :=
  let from_col_names := tfrom.columns.map Column.name
  let to_col_names := tto.columns.map Column.name
  let from_idx_names := tfrom.indexes.map Index.name
  let to_idx_names := tto.indexes.map Index.name
  let from_con_names := tfrom.constraints.map Constraint.name
  let to_con_names := tto.constraints.map Constraint.name
  let from_fk_names := tfrom.foreign_keys.map (fk_diff_key tfrom)
  let to_fk_names := tto.foreign_keys.map (fk_diff_key tto)
  { table_name := tfrom.name
    rename_to := none
    columns_to_add :=
      (to_col_names.filter (fun n => !(from_col_names.contains n))).filterMap
        (fun n => tto.columns.find? (fun c => c.name == n))
    columns_to_drop := from_col_names.filter (fun n => !(to_col_names.contains n))
    columns_to_modify :=
      (from_col_names.filter (fun n => to_col_names.contains n)).filterMap
        (fun n =>
          match tfrom.columns.find? (fun c => c.name == n),
              tto.columns.find? (fun c => c.name == n) with
          | some cf, some ct =>
              if self.columns_differ cf ct then some (cf, ct) else none
          | _, _ => none)
    indexes_to_create :=
      (to_idx_names.filter (fun n => !(from_idx_names.contains n))).filterMap
        (fun n => tto.indexes.find? (fun i => i.name == n))
    indexes_to_drop := from_idx_names.filter (fun n => !(to_idx_names.contains n))
    constraints_to_add :=
      (to_con_names.filter (fun n => !(from_con_names.contains n))).filterMap
        (fun n => tto.constraints.find? (fun c => c.name == n))
    constraints_to_drop := from_con_names.filter (fun n => !(to_con_names.contains n))
    foreign_keys_to_add :=
      (to_fk_names.filter (fun n => !(from_fk_names.contains n))).filterMap
        (fun n => tto.foreign_keys.find? (fun fk => fk_diff_key tto fk == n))
    foreign_keys_to_drop := from_fk_names.filter (fun n => !(to_fk_names.contains n)) }

/-- `SchemaDiffer::diff` (diff.rs lines 211-255): table-name set differences
give creations and drops; the intersection yields per-table diffs, kept only
when non-empty.  Excluded tables are removed from both sides. -/
def SchemaDiffer.diff (self : SchemaDiffer) (sfrom sto : Schema) : SchemaDiff :=
  let from_tables :=
    (sfrom.tables.map Prod.fst).filter (fun t => !(self.exclude_tables.contains t))
  let to_tables :=
    (sto.tables.map Prod.fst).filter (fun t => !(self.exclude_tables.contains t))
  { tables_to_create :=
      (to_tables.filter (fun n => !(from_tables.contains n))).filterMap
        (fun n => sto.get_table n)
    tables_to_drop := from_tables.filter (fun n => !(to_tables.contains n))
    table_modifications :=
      (from_tables.filter (fun n => to_tables.contains n)).filterMap
        (fun n =>
          match sfrom.get_table n, sto.get_table n with
          | some tf, some tt =>
              let td := self.diff_tables tf tt
              if td.is_empty then none else some td
          | _, _ => none) }

/-- Filtering a list by non-membership in itself gives the empty list. -/
lemma filter_not_contains_self (l : List String) :
    l.filter (fun n => !(l.contains n)) = [] := by
  apply List.filter_eq_nil_iff.mpr
  intro a ha
  simp [ha]

/-- A column never differs from itself under `columns_differ`. -/
lemma columns_differ_self (d : SchemaDiffer) (c : Column) :
    d.columns_differ c c = false := by
  unfold SchemaDiffer.columns_differ
  simp only [if_pos rfl]
  cases c.default <;> simp

/-- `diff_tables` of a table against itself is empty. -/
lemma diff_tables_self (d : SchemaDiffer) (t : Table) :
    (d.diff_tables t t).is_empty = true := by
  have hmod : (((t.columns.map Column.name).filter
      (fun n => (t.columns.map Column.name).contains n)).filterMap
        (fun n =>
          match t.columns.find? (fun c => c.name == n),
              t.columns.find? (fun c => c.name == n) with
          | some cf, some ct =>
              if d.columns_differ cf ct then some (cf, ct) else none
          | _, _ => none)) = [] := by
    apply List.filterMap_eq_nil_iff.mpr
    intro n _
    cases hf : t.columns.find? (fun c => c.name == n) with
    | none => simp
    | some c => simp [columns_differ_self]
  unfold SchemaDiffer.diff_tables TableDiff.is_empty
  simp only [filter_not_contains_self, List.filterMap_nil, hmod]
  simp

/-- On an association list with distinct keys, looking every key back up
returns exactly the values, in order. -/
lemma filterMap_find_keys (l : List (String × Table))
    (h : (l.map Prod.fst).Nodup) :
    (l.map Prod.fst).filterMap
        (fun n => ((l.find? (fun p => p.1 == n)).map Prod.snd)) = l.map Prod.snd := by
  induction l with
  | nil => rfl
  | cons p rest ih =>
      simp only [List.map_cons, List.nodup_cons] at h
      have hfind0 : List.find? (fun q => (q : String × Table).1 == p.1) (p :: rest) =
          some p := List.find?_cons_of_pos _ (by simp)
      have hhead : (fun n => (((p :: rest).find? (fun q => q.1 == n)).map Prod.snd)) p.1 =
          some p.2 := by
        show (((p :: rest).find? (fun q => q.1 == p.1)).map Prod.snd) = some p.2
        rw [hfind0]
        rfl
      have hstep : ∀ n ∈ List.map Prod.fst rest,
          (((p :: rest).find? (fun q => q.1 == n)).map Prod.snd) =
            ((rest.find? (fun q => q.1 == n)).map Prod.snd) := by
        intro n hn
        have hne : ¬((p.1 == n) = true) := by
          simp only [beq_iff_eq]
          exact fun hEq => h.1 (hEq ▸ hn)
        have hfind : List.find? (fun q => (q : String × Table).1 == n) (p :: rest) =
            List.find? (fun q => q.1 == n) rest := List.find?_cons_of_neg _ hne
        rw [hfind]
      have hcons : List.filterMap
            (fun n => Option.map Prod.snd (List.find? (fun q => q.1 == n) (p :: rest)))
            (p.1 :: List.map Prod.fst rest) =
          p.2 :: List.filterMap
            (fun n => Option.map Prod.snd (List.find? (fun q => q.1 == n) (p :: rest)))
            (List.map Prod.fst rest) :=
        List.filterMap_cons_some hhead
      rw [List.map_cons, hcons, List.filterMap_congr hstep, ih h.2, List.map_cons]

/-- With no excluded tables, the exclusion filter keeps every name. -/
lemma filter_exclude_none (l : List String) :
    l.filter (fun t => !((SchemaDiffer.mk_new.exclude_tables).contains t)) = l := by
  apply List.filter_eq_self.mpr
  intro a _
  rfl

/-- Claim C8: `diff(S, S)` is empty; `diff(empty, S)` creates exactly the
tables of `S` (one `CreateTable` per table, in order) with no drops and no
modifications; `diff(S, empty)` drops exactly the tables of `S` with no
creations and no modifications. -/
theorem schema_differ_diff_basic (S : Schema)
    (h : (S.tables.map Prod.fst).Nodup) :
    (SchemaDiffer.mk_new.diff S S).is_empty = true ∧
    ((SchemaDiffer.mk_new.diff Schema.new S).tables_to_create = S.tables.map Prod.snd ∧
      (SchemaDiffer.mk_new.diff Schema.new S).tables_to_drop = [] ∧
      (SchemaDiffer.mk_new.diff Schema.new S).table_modifications = []) ∧
    ((SchemaDiffer.mk_new.diff S Schema.new).tables_to_drop = S.tables.map Prod.fst ∧
      (SchemaDiffer.mk_new.diff S Schema.new).tables_to_create = [] ∧
      (SchemaDiffer.mk_new.diff S Schema.new).table_modifications = []) := by
  have hmods_self : ((S.tables.map Prod.fst).filter
      (fun n => (S.tables.map Prod.fst).contains n)).filterMap
        (fun n =>
          match S.get_table n, S.get_table n with
          | some tf, some tt =>
              let td := SchemaDiffer.mk_new.diff_tables tf tt
              if td.is_empty then none else some td
          | _, _ => none) = [] := by
    apply List.filterMap_eq_nil_iff.mpr
    intro n _
    cases hg : S.get_table n with
    | none => rfl
    | some t => simp [diff_tables_self]
  refine ⟨?_, ⟨?_, ?_, ?_⟩, ⟨?_, ?_, ?_⟩⟩
  · simp only [SchemaDiffer.diff, SchemaDiff.is_empty, filter_exclude_none,
      filter_not_contains_self, List.filterMap_nil, hmods_self]
    rfl
  · simp only [SchemaDiffer.diff, Schema.new, filter_exclude_none, List.map_nil,
      List.filter_nil]
    have hfil : (S.tables.map Prod.fst).filter (fun n => !(List.contains [] n)) =
        S.tables.map Prod.fst := by
      apply List.filter_eq_self.mpr
      intro a _
      rfl
    rw [hfil]
    exact filterMap_find_keys S.tables h
  · simp only [SchemaDiffer.diff, Schema.new, filter_exclude_none, List.map_nil,
      List.filter_nil]
  · simp only [SchemaDiffer.diff, Schema.new, filter_exclude_none, List.map_nil,
      List.filter_nil, List.filterMap_nil]
  · simp only [SchemaDiffer.diff, Schema.new, filter_exclude_none, List.map_nil,
      List.filter_nil]
    apply List.filter_eq_self.mpr
    intro a _
    rfl
  · simp only [SchemaDiffer.diff, Schema.new, filter_exclude_none, List.map_nil,
      List.filter_nil, List.filterMap_nil]
  · simp only [SchemaDiffer.diff, Schema.new, filter_exclude_none, List.map_nil,
      List.filter_nil]
    apply List.filterMap_eq_nil_iff.mpr
    intro n hn
    simp at hn

/-- Concrete table for the C8 witness. -/
def c8_users : Table :=
  { name := "users", schema := none
    columns := [{ name := "id", column_type := ColumnType.BigSerial, nullable := false
                  default := none, auto_increment := false, comment := none }]
    primary_key := some { name := none, columns := ["id"] }
    indexes := [], constraints := [], foreign_keys := [], comment := none }

/-- Concrete one-table schema for the C8 witness. -/
def c8_schema : Schema :=
  { name := none, tables := [("users", c8_users)], extensions := [] }

/-- Witness for C8 at a concrete one-table schema. -/
theorem schema_differ_diff_basic_witness :
    (SchemaDiffer.mk_new.diff c8_schema c8_schema).is_empty = true ∧
    (SchemaDiffer.mk_new.diff Schema.new c8_schema).tables_to_create = [c8_users] ∧
    (SchemaDiffer.mk_new.diff c8_schema Schema.new).tables_to_drop = ["users"] :=
  ⟨(schema_differ_diff_basic c8_schema (by decide)).1,
   (schema_differ_diff_basic c8_schema (by decide)).2.1.1,
   (schema_differ_diff_basic c8_schema (by decide)).2.2.1⟩

/-- One step of the `$N → ?` scan in `MySqlDialect::generate` (sql.rs lines
444-456): on `$` push `?` and enter placeholder mode; in placeholder mode
skip ASCII digits; otherwise leave placeholder mode and keep the character. -/
def mysql_placeholder_step (st : Bool × List Char) (c : Char) : Bool × List Char :=
  if c = '$' then (true, st.2 ++ ['?'])
  else if st.1 && c.isDigit then (true, st.2)
  else (false, st.2 ++ [c])

/-- The full `$N → ?` scan of `MySqlDialect::generate`. -/
def mysql_placeholder_scan (s : List Char) : List Char :=
  (s.foldl mysql_placeholder_step (false, [])).2

/-- The SQL-text post-processing of `MySqlDialect::generate` (sql.rs lines
437-463): the placeholder scan followed by replacing every ` ILIKE ` with
` LIKE `. -/
def mysql_rewrite_sql (sql : String) : String :=
  rust_replace (String.mk (mysql_placeholder_scan sql.data)) " ILIKE " " LIKE "

/-- Modelled from the spec (recursive-descent reading of the placeholder
rule): each `$` becomes one `?` and the maximal digit run after it is
dropped.  Fuel-structural; `fuel = length` suffices. -/
def dollar_spec_fuel : Nat → List Char → List Char
  | 0, l => l
  | _ + 1, [] => []
  | fuel + 1, c :: rest =>
      if c = '$' then '?' :: dollar_spec_fuel fuel (rest.dropWhile Char.isDigit)
      else c :: dollar_spec_fuel fuel rest

/-- The recursive-descent placeholder rewrite. -/
def dollar_spec (s : List Char) : List Char := dollar_spec_fuel s.length s

/-- `dollar_spec_fuel` does not depend on the fuel, as long as the fuel is at
least the list length. -/
lemma dollar_spec_fuel_eq : ∀ (fuel fuel2 : Nat) (l : List Char),
    l.length ≤ fuel → l.length ≤ fuel2 →
    dollar_spec_fuel fuel l = dollar_spec_fuel fuel2 l := by
  intro fuel
  induction fuel with
  | zero =>
      intro fuel2 l hl _
      have : l = [] := List.eq_nil_of_length_eq_zero (Nat.le_zero.mp hl)
      subst this
      cases fuel2 <;> rfl
  | succ fuel ih =>
      intro fuel2 l hl hl2
      cases l with
      | nil => cases fuel2 <;> rfl
      | cons c rest =>
          cases fuel2 with
          | zero => exact absurd hl2 (by simp)
          | succ fuel2 =>
              simp only [dollar_spec_fuel]
              by_cases hc : c = '$'
              · simp only [if_pos hc]
                have hd : (rest.dropWhile Char.isDigit).length ≤ rest.length :=
                  (List.dropWhile_sublist _).length_le
                have h1 : (rest.dropWhile Char.isDigit).length ≤ fuel :=
                  le_trans hd ((by simpa using hl))
                have h2 : (rest.dropWhile Char.isDigit).length ≤ fuel2 :=
                  le_trans hd ((by simpa using hl2))
                rw [ih fuel2 _ h1 h2]
              · simp only [if_neg hc]
                rw [ih fuel2 rest ((by simpa using hl))
                  ((by simpa using hl2))]

/-- The stateful character scan agrees with the recursive-descent rewrite:
from the `false` state it produces `dollar_spec`, from the `true` state it
first skips the pending digit run. -/
lemma mysql_scan_eq_dollar_spec_aux : ∀ (fuel : Nat) (s acc : List Char),
    s.length ≤ fuel →
    ((s.foldl mysql_placeholder_step (false, acc)).2 =
        acc ++ dollar_spec_fuel fuel s) ∧
    ((s.foldl mysql_placeholder_step (true, acc)).2 =
        acc ++ dollar_spec_fuel fuel (s.dropWhile Char.isDigit)) := by
  intro fuel
  induction fuel with
  | zero =>
      intro s acc hl
      have : s = [] := List.eq_nil_of_length_eq_zero (Nat.le_zero.mp hl)
      subst this
      exact ⟨by simp [dollar_spec_fuel], by simp [dollar_spec_fuel]⟩
  | succ fuel ih =>
      intro s acc hl
      cases s with
      | nil => exact ⟨by simp [dollar_spec_fuel], by simp [dollar_spec_fuel]⟩
      | cons c rest =>
          have hrest : rest.length ≤ fuel := (by simpa using hl)
          constructor
          · by_cases hc : c = '$'
            · rw [List.foldl_cons]
              have hstep : mysql_placeholder_step (false, acc) c = (true, acc ++ ['?']) := by
                simp [mysql_placeholder_step, hc]
              rw [hstep]
              rw [(ih rest (acc ++ ['?']) hrest).2]
              simp [dollar_spec_fuel, hc]
            · rw [List.foldl_cons]
              have hstep : mysql_placeholder_step (false, acc) c = (false, acc ++ [c]) := by
                simp [mysql_placeholder_step, hc]
              rw [hstep]
              rw [(ih rest (acc ++ [c]) hrest).1]
              simp [dollar_spec_fuel, hc]
          · by_cases hc : c = '$'
            · rw [List.foldl_cons]
              have hstep : mysql_placeholder_step (true, acc) c = (true, acc ++ ['?']) := by
                simp [mysql_placeholder_step, hc]
              rw [hstep]
              rw [(ih rest (acc ++ ['?']) hrest).2]
              have hnd : ¬(Char.isDigit c = true) := by
                subst hc
                decide
              rw [List.dropWhile_cons, if_neg hnd]
              simp [dollar_spec_fuel, hc]
            · by_cases hd : c.isDigit
              · rw [List.foldl_cons]
                have hstep : mysql_placeholder_step (true, acc) c = (true, acc) := by
                  simp [mysql_placeholder_step, hc, hd]
                rw [hstep]
                rw [(ih rest acc hrest).2]
                rw [List.dropWhile_cons, if_pos hd]
                have hdw : (rest.dropWhile Char.isDigit).length ≤ fuel :=
                  le_trans ((List.dropWhile_sublist _).length_le) hrest
                rw [dollar_spec_fuel_eq fuel (fuel + 1) _ hdw (le_trans hdw (by omega))]
              · rw [List.foldl_cons]
                have hstep : mysql_placeholder_step (true, acc) c = (false, acc ++ [c]) := by
                  simp [mysql_placeholder_step, hc, hd]
                rw [hstep]
                rw [(ih rest (acc ++ [c]) hrest).1]
                rw [List.dropWhile_cons, if_neg hd]
                simp [dollar_spec_fuel, hc]

/-- Claim C4 (amended): the MySQL dialect post-processing factors exactly as
the recursive-descent placeholder rule followed by the ` ILIKE ` → ` LIKE `
replacement — every `$` (isolated or not) becomes one `?`, with the digits
following a `$` dropped; and the spec's E3 example rewrites as prescribed. -/
theorem mysql_rewrite_characterization :
    (∀ sql : String, mysql_rewrite_sql sql =
        rust_replace (String.mk (dollar_spec sql.data)) " ILIKE " " LIKE ") ∧
    mysql_rewrite_sql "SELECT * FROM t WHERE a = $1 AND b ILIKE $2" =
      "SELECT * FROM t WHERE a = ? AND b LIKE ?" := by
  constructor
  · intro sql
    unfold mysql_rewrite_sql mysql_placeholder_scan dollar_spec
    rw [(mysql_scan_eq_dollar_spec_aux sql.data.length sql.data [] le_rfl).1]
    rfl
  · rfl

/-- Claim C4 counterexample: an isolated `$` (not followed by a digit) is NOT
left as a literal `$` — the code rewrites it to `?` as well. -/
theorem mysql_isolated_dollar_rewritten :
    mysql_rewrite_sql "SELECT a $ FROM t" = "SELECT a ? FROM t" ∧
    mysql_rewrite_sql "SELECT a $ FROM t" ≠ "SELECT a $ FROM t" := by
  constructor
  · rfl
  · decide

/-- Pool configuration (`PoolConfig` in `chakra-pool/src/config.rs`);
durations are modelled as `Nat`. -/
structure PoolConfig where
  min_connections : Nat
  max_connections : Nat
  acquire_timeout : Nat
  idle_timeout : Option Nat
  max_lifetime : Option Nat
  health_check_interval : Nat
  test_on_checkout : Bool
  test_on_checkin : Bool

/-- Pool-side metadata of a connection (`ManagedConnection` in
`chakra-pool/src/manager.rs`); instants are modelled as `Nat`. -/
structure ManagedConnection where
  created_at : Nat
  last_used_at : Nat
  use_count : Nat
  id : Nat

/-- `ManagedConnection::age`: elapsed time since creation, at instant `now`. -/
def ManagedConnection.age (c : ManagedConnection) (now : Nat) : Nat :=
  now - c.created_at

/-- `ManagedConnection::idle_time`: elapsed time since last use. -/
def ManagedConnection.idle_time (c : ManagedConnection) (now : Nat) : Nat :=
  now - c.last_used_at

/-- `Pool::is_connection_expired` (pool.rs lines 198-215): max-lifetime check
with early return, then idle-timeout check with early return, then the
manager-specific expiration verdict (`manager.has_expired`, passed in as a
boolean since the adapter is abstract). -/
def Pool.is_connection_expired (cfg : PoolConfig) (manager_expired : Bool)
    (now : Nat) (conn : ManagedConnection) : Bool :=
  let check_idle :=
    match cfg.idle_timeout with
    | some idle_timeout =>
        if conn.idle_time now > idle_timeout then true else manager_expired
    | none => manager_expired
  match cfg.max_lifetime with
  | some max_lifetime =>
      if conn.age now > max_lifetime then true else check_idle
  | none => check_idle

/-- Claim C9: a connection is considered expired exactly when its age exceeds
the configured `max_lifetime` (if set), or its idle time exceeds the
configured `idle_timeout` (if set), or the manager reports it expired. -/
theorem pool_expiration_predicate (cfg : PoolConfig) (manager_expired : Bool)
    (now : Nat) (conn : ManagedConnection) :
    Pool.is_connection_expired cfg manager_expired now conn = true ↔
      ((∃ ml, cfg.max_lifetime = some ml ∧ conn.age now > ml) ∨
       (∃ it, cfg.idle_timeout = some it ∧ conn.idle_time now > it) ∨
       manager_expired = true) := by
  unfold Pool.is_connection_expired
  cases hml : cfg.max_lifetime <;> cases hit : cfg.idle_timeout <;>
    simp only [] <;> (try split_ifs) <;> (try simp_all)
  exact ⟨fun h => Or.inr (Or.inr h),
    fun h => h.elim (fun hh => absurd hh (by omega))
      (fun hh => hh.elim (fun hh2 => absurd hh2 (by omega)) id)⟩

/-- Witness for C9: a connection two ticks past a max lifetime of 10 is
expired even with an idle timeout of 100 unmet and a healthy manager verdict. -/
theorem pool_expiration_predicate_witness :
    Pool.is_connection_expired
      { min_connections := 0, max_connections := 5, acquire_timeout := 30
        idle_timeout := some 100, max_lifetime := some 10
        health_check_interval := 30, test_on_checkout := true
        test_on_checkin := false }
      false 12 { created_at := 0, last_used_at := 11, use_count := 3, id := 1 } = true :=
  (pool_expiration_predicate _ false 12 _).mpr (Or.inl ⟨10, rfl, by decide⟩)

/-- Left brace character (spelled via its code point). -/
def lbrace : Char := Char.ofNat 123

/-- Right brace character (spelled via its code point). -/
def rbrace : Char := Char.ofNat 125

/-- Lowercase hexadecimal digit. -/
def hex_digit (n : Nat) : Char :=
  "0123456789abcdef".data.getD n '0'

/-- serde_json escaping of one character inside a JSON string: quote and
backslash are escaped, the named control escapes are used for 0x08-0x0D, any
other control character becomes a `\u00XX` escape, and everything else is
emitted as itself. -/
def json_escape_char (c : Char) : List Char :=
  if c = '"' then ['\\', '"']
  else if c = '\\' then ['\\', '\\']
  else if c.toNat = 8 then ['\\', 'b']
  else if c = '\t' then ['\\', 't']
  else if c = '\n' then ['\\', 'n']
  else if c.toNat = 12 then ['\\', 'f']
  else if c = '\r' then ['\\', 'r']
  else if c.toNat < 32 then
    ['\\', 'u', '0', '0', hex_digit (c.toNat / 16), hex_digit (c.toNat % 16)]
  else [c]

/-- JSON string literal. -/
def json_string (s : String) : List Char :=
  '"' :: s.data.flatMap json_escape_char ++ ['"']

/-- JSON rendering of an optional value (`None` → `null`). -/
def json_opt {α : Type} (f : α → List Char) : Option α → List Char
  | some a => f a
  | none => "null".data

/-- JSON booleans. -/
def json_bool (b : Bool) : List Char := if b then "true".data else "false".data

/-- Comma-joined concatenation. -/
def json_comma_sep (parts : List (List Char)) : List Char :=
  (parts.intersperse [',']).flatten

/-- JSON array. -/
def json_array (items : List (List Char)) : List Char :=
  '[' :: json_comma_sep items ++ [']']

/-- Compact JSON object with the given fields, in order. -/
def json_object (fields : List (String × List Char)) : List Char :=
  lbrace :: json_comma_sep (fields.map (fun p => json_string p.1 ++ ':' :: p.2))
    ++ [rbrace]

/-- serde_json rendering of a Rust `f64`: a finite float prints its decimal
rendering; NaN and the infinities serialize as `null` (serde_json's
documented behaviour for non-finite floats). -/
def json_F64 : F64 → List Char
  | .finite r => r.data
  | _ => "null".data

/-- serde_json (derived) serialization of `ColumnType`: externally tagged
enum, unit variants as strings, newtype/struct variants as one-field
objects. -/
def json_ColumnType : ColumnType → List Char
  | .SmallInt => json_string "SmallInt"
  | .Integer => json_string "Integer"
  | .BigInt => json_string "BigInt"
  | .Decimal precision scale =>
      json_object [("Decimal", json_object
        [("precision", (toString precision).data), ("scale", (toString scale).data)])]
  | .Real => json_string "Real"
  | .DoublePrecision => json_string "DoublePrecision"
  | .Char len => json_object [("Char", (toString len).data)]
  | .Varchar len => json_object [("Varchar", json_opt (fun n => (toString n).data) len)]
  | .Text => json_string "Text"
  | .Boolean => json_string "Boolean"
  | .Date => json_string "Date"
  | .Time with_timezone =>
      json_object [("Time", json_object [("with_timezone", json_bool with_timezone)])]
  | .Timestamp with_timezone =>
      json_object [("Timestamp", json_object [("with_timezone", json_bool with_timezone)])]
  | .Interval => json_string "Interval"
  | .Uuid => json_string "Uuid"
  | .Json => json_string "Json"
  | .Jsonb => json_string "Jsonb"
  | .Bytea => json_string "Bytea"
  | .Array inner => json_object [("Array", json_ColumnType inner)]
  | .Custom name => json_object [("Custom", json_string name)]
  | .Serial => json_string "Serial"
  | .BigSerial => json_string "BigSerial"

/-- serde_json serialization of `ColumnDefault`. -/
def json_ColumnDefault : ColumnDefault → List Char
  | .Null => json_string "Null"
  | .Boolean b => json_object [("Boolean", json_bool b)]
  | .Integer i => json_object [("Integer", (toString i).data)]
  | .Float f => json_object [("Float", json_F64 f)]
  | .String s => json_object [("String", json_string s)]
  | .Expression e => json_object [("Expression", json_string e)]
  | .CurrentTimestamp => json_string "CurrentTimestamp"
  | .GenerateUuid => json_string "GenerateUuid"

/-- serde_json serialization of `Column` (fields in declaration order). -/
def json_Column (c : Column) : List Char :=
  json_object
    [("name", json_string c.name),
     ("column_type", json_ColumnType c.column_type),
     ("nullable", json_bool c.nullable),
     ("default", json_opt json_ColumnDefault c.default),
     ("auto_increment", json_bool c.auto_increment),
     ("comment", json_opt json_string c.comment)]

/-- serde_json serialization of `PrimaryKey`. -/
def json_PrimaryKey (pk : PrimaryKey) : List Char :=
  json_object
    [("name", json_opt json_string pk.name),
     ("columns", json_array (pk.columns.map json_string))]

/-- serde_json serialization of `IndexOrder`. -/
def json_IndexOrder : IndexOrder → List Char
  | .Asc => json_string "Asc"
  | .Desc => json_string "Desc"

/-- serde_json serialization of `NullsOrder`. -/
def json_NullsOrder : NullsOrder → List Char
  | .First => json_string "First"
  | .Last => json_string "Last"

/-- serde_json serialization of `IndexColumn`. -/
def json_IndexColumn (c : IndexColumn) : List Char :=
  json_object
    [("name", json_string c.name),
     ("order", json_opt json_IndexOrder c.order),
     ("nulls", json_opt json_NullsOrder c.nulls)]

/-- serde_json serialization of `Index`. -/
def json_Index (i : Index) : List Char :=
  json_object
    [("name", json_string i.name),
     ("columns", json_array (i.columns.map json_IndexColumn)),
     ("unique", json_bool i.unique),
     ("method", json_opt json_string i.method),
     ("where_clause", json_opt json_string i.where_clause)]

/-- serde_json serialization of `ConstraintType`. -/
def json_ConstraintType : ConstraintType → List Char
  | .Unique columns =>
      json_object [("Unique", json_object
        [("columns", json_array (columns.map json_string))])]
  | .Check expression =>
      json_object [("Check", json_object [("expression", json_string expression)])]
  | .Exclusion expression =>
      json_object [("Exclusion", json_object [("expression", json_string expression)])]

/-- serde_json serialization of `Constraint`. -/
def json_Constraint (c : Constraint) : List Char :=
  json_object
    [("name", json_string c.name),
     ("constraint_type", json_ConstraintType c.constraint_type)]

/-- serde_json serialization of `ForeignKeyAction`. -/
def json_ForeignKeyAction : ForeignKeyAction → List Char
  | .NoAction => json_string "NoAction"
  | .Cascade => json_string "Cascade"
  | .SetNull => json_string "SetNull"
  | .SetDefault => json_string "SetDefault"
  | .Restrict => json_string "Restrict"

/-- serde_json serialization of `ForeignKey`. -/
def json_ForeignKey (fk : ForeignKey) : List Char :=
  json_object
    [("name", json_opt json_string fk.name),
     ("columns", json_array (fk.columns.map json_string)),
     ("references_table", json_string fk.references_table),
     ("references_columns", json_array (fk.references_columns.map json_string)),
     ("on_delete", json_ForeignKeyAction fk.on_delete),
     ("on_update", json_ForeignKeyAction fk.on_update)]

/-- serde_json serialization of `Table`. -/
def json_Table (t : Table) : List Char :=
  json_object
    [("name", json_string t.name),
     ("schema", json_opt json_string t.schema),
     ("columns", json_array (t.columns.map json_Column)),
     ("primary_key", json_opt json_PrimaryKey t.primary_key),
     ("indexes", json_array (t.indexes.map json_Index)),
     ("constraints", json_array (t.constraints.map json_Constraint)),
     ("foreign_keys", json_array (t.foreign_keys.map json_ForeignKey)),
     ("comment", json_opt json_string t.comment)]

/-- A migration operation (`MigrationOperation` in `diff.rs`). -/
inductive MigrationOperation where
  | CreateTable (table : Table)
  | DropTable (name : String) (cascade : Bool)
  | RenameTable (rfrom : String) (rto : String)
  | AddColumn (table : String) (column : Column)
  | DropColumn (table : String) (column : String)
  | AlterColumn (table : String) (cfrom : Column) (cto : Column)
  | RenameColumn (table : String) (cfrom : String) (cto : String)
  | CreateIndex (table : String) (index : Index)
  | DropIndex (name : String)
  | AddConstraint (table : String) (constraint : Constraint)
  | DropConstraint (table : String) (name : String)
  | AddForeignKey (table : String) (foreign_key : ForeignKey)
  | DropForeignKey (table : String) (name : String)
  | RawSql (up : String) (down : Option String)
deriving DecidableEq, Repr

/-- serde_json serialization of `MigrationOperation` (externally tagged;
struct variants become one-field objects whose value lists the fields with
their Rust names). -/
def json_MigrationOperation : MigrationOperation → List Char
  | .CreateTable table => json_object [("CreateTable", json_Table table)]
  | .DropTable name cascade =>
      json_object [("DropTable", json_object
        [("name", json_string name), ("cascade", json_bool cascade)])]
  | .RenameTable rfrom rto =>
      json_object [("RenameTable", json_object
        [("from", json_string rfrom), ("to", json_string rto)])]
  | .AddColumn table column =>
      json_object [("AddColumn", json_object
        [("table", json_string table), ("column", json_Column column)])]
  | .DropColumn table column =>
      json_object [("DropColumn", json_object
        [("table", json_string table), ("column", json_string column)])]
  | .AlterColumn table cfrom cto =>
      json_object [("AlterColumn", json_object
        [("table", json_string table), ("from", json_Column cfrom),
         ("to", json_Column cto)])]
  | .RenameColumn table cfrom cto =>
      json_object [("RenameColumn", json_object
        [("table", json_string table), ("from", json_string cfrom),
         ("to", json_string cto)])]
  | .CreateIndex table index =>
      json_object [("CreateIndex", json_object
        [("table", json_string table), ("index", json_Index index)])]
  | .DropIndex name => json_object [("DropIndex", json_object [("name", json_string name)])]
  | .AddConstraint table constraint =>
      json_object [("AddConstraint", json_object
        [("table", json_string table), ("constraint", json_Constraint constraint)])]
  | .DropConstraint table name =>
      json_object [("DropConstraint", json_object
        [("table", json_string table), ("name", json_string name)])]
  | .AddForeignKey table foreign_key =>
      json_object [("AddForeignKey", json_object
        [("table", json_string table), ("foreign_key", json_ForeignKey foreign_key)])]
  | .DropForeignKey table name =>
      json_object [("DropForeignKey", json_object
        [("table", json_string table), ("name", json_string name)])]
  | .RawSql up down =>
      json_object [("RawSql", json_object
        [("up", json_string up), ("down", json_opt json_string down)])]

/-- `serde_json::to_string` of a migration operation.  For these types the
serializer is total (non-finite floats serialize as `null` rather than
erroring), so the `unwrap_or_default` in the source is never exercised. -/
def serde_json_to_string (op : MigrationOperation) : String :=
  String.mk (json_MigrationOperation op)

/-- UTF-8 encoding of one unicode scalar value, as byte values. -/
def utf8_encode_char (c : Char) : List Nat :=
  let n := c.toNat
  if n < 128 then [n]
  else if n < 2048 then [192 + n / 64, 128 + n % 64]
  else if n < 65536 then [224 + n / 4096, 128 + (n / 64) % 64, 128 + n % 64]
  else [240 + n / 262144, 128 + (n / 4096) % 64, 128 + (n / 64) % 64, 128 + n % 64]

/-- UTF-8 bytes of a string (Rust `str::as_bytes`). -/
def utf8_bytes (s : String) : List Nat := s.data.flatMap utf8_encode_char

/-- Truncation to 32 bits. -/
def w32 (n : Nat) : Nat := n % 4294967296

/-- 32-bit right rotation. -/
def rotr32 (x n : Nat) : Nat := x / 2 ^ n + x % 2 ^ n * 2 ^ (32 - n)

/-- 32-bit bitwise complement (for `x < 2^32`). -/
def not32 (x : Nat) : Nat := 4294967295 - x

/-- SHA-256 `Ch` function. -/
def sha_ch (x y z : Nat) : Nat := (x &&& y) ^^^ (not32 x &&& z)

/-- SHA-256 `Maj` function. -/
def sha_maj (x y z : Nat) : Nat := (x &&& y) ^^^ (x &&& z) ^^^ (y &&& z)

/-- SHA-256 big sigma 0. -/
def sha_bsig0 (x : Nat) : Nat := rotr32 x 2 ^^^ rotr32 x 13 ^^^ rotr32 x 22

/-- SHA-256 big sigma 1. -/
def sha_bsig1 (x : Nat) : Nat := rotr32 x 6 ^^^ rotr32 x 11 ^^^ rotr32 x 25

/-- SHA-256 small sigma 0. -/
def sha_ssig0 (x : Nat) : Nat := rotr32 x 7 ^^^ rotr32 x 18 ^^^ x / 2 ^ 3

/-- SHA-256 small sigma 1. -/
def sha_ssig1 (x : Nat) : Nat := rotr32 x 17 ^^^ rotr32 x 19 ^^^ x / 2 ^ 10

/-- The SHA-256 round constants. -/
def sha_k : List Nat :=
  [1116352408, 1899447441, 3049323471, 3921009573, 961987163, 1508970993,
   2453635748, 2870763221, 3624381080, 310598401, 607225278, 1426881987,
   1925078388, 2162078206, 2614888103, 3248222580, 3835390401, 4022224774,
   264347078, 604807628, 770255983, 1249150122, 1555081692, 1996064986,
   2554220882, 2821834349, 2952996808, 3210313671, 3336571891, 3584528711,
   113926993, 338241895, 666307205, 773529912, 1294757372, 1396182291,
   1695183700, 1986661051, 2177026350, 2456956037, 2730485921, 2820302411,
   3259730800, 3345764771, 3516065817, 3600352804, 4094571909, 275423344,
   430227734, 506948616, 659060556, 883997877, 958139571, 1322822218,
   1537002063, 1747873779, 1955562222, 2024104815, 2227730452, 2361852424,
   2428436474, 2756734187, 3204031479, 3329325298]

/-- Big-endian byte rendering of a value on `n` bytes. -/
def be_bytes (n v : Nat) : List Nat :=
  (List.range n).map (fun i => v / 2 ^ (8 * (n - 1 - i)) % 256)

/-- SHA-256 message padding: `0x80`, zeros to 56 mod 64, 64-bit big-endian
bit length. -/
def sha256_pad (m : List Nat) : List Nat :=
  let l := m.length
  let k := (64 + 56 - (l + 1) % 64) % 64
  m ++ [128] ++ List.replicate k 0 ++ be_bytes 8 (l * 8)

/-- Split into 64-byte chunks (fuel-structural; fuel = length suffices). -/
def chunks64_fuel : Nat → List Nat → List (List Nat)
  | 0, _ => []
  | fuel + 1, l => if l.isEmpty then [] else l.take 64 :: chunks64_fuel fuel (l.drop 64)

/-- The eight SHA-256 working variables. -/
structure Hash8 where
  a : Nat
  b : Nat
  c : Nat
  d : Nat
  e : Nat
  f : Nat
  g : Nat
  h : Nat

/-- The SHA-256 initial hash value. -/
def sha_h0 : Hash8 :=
  { a := 1779033703, b := 3144134277, c := 1013904242, d := 2773480762
    e := 1359893119, f := 2600822924, g := 528734635, h := 1541459225 }

/-- Message schedule of one 64-byte chunk: 16 words from the bytes, extended
to 64 words. -/
def sha_schedule (chunk : List Nat) : List Nat :=
  let w0 := (List.range 16).map (fun i =>
    chunk.getD (4 * i) 0 * 16777216 + chunk.getD (4 * i + 1) 0 * 65536
      + chunk.getD (4 * i + 2) 0 * 256 + chunk.getD (4 * i + 3) 0)
  (List.range 48).foldl (fun w _ =>
    w ++ [w32 (sha_ssig1 (w.getD (w.length - 2) 0) + w.getD (w.length - 7) 0
      + sha_ssig0 (w.getD (w.length - 15) 0) + w.getD (w.length - 16) 0)]) w0

/-- One SHA-256 compression round. -/
def sha_round (w : List Nat) (st : Hash8) (i : Nat) : Hash8 :=
  let t1 := w32 (st.h + sha_bsig1 st.e + sha_ch st.e st.f st.g
    + sha_k.getD i 0 + w.getD i 0)
  let t2 := w32 (sha_bsig0 st.a + sha_maj st.a st.b st.c)
  { a := w32 (t1 + t2), b := st.a, c := st.b, d := st.c
    e := w32 (st.d + t1), f := st.e, g := st.f, h := st.g }

/-- SHA-256 compression of one chunk. -/
def sha_compress (st : Hash8) (chunk : List Nat) : Hash8 :=
  let w := sha_schedule chunk
  let r := (List.range 64).foldl (sha_round w) st
  { a := w32 (st.a + r.a), b := w32 (st.b + r.b), c := w32 (st.c + r.c)
    d := w32 (st.d + r.d), e := w32 (st.e + r.e), f := w32 (st.f + r.f)
    g := w32 (st.g + r.g), h := w32 (st.h + r.h) }

/-- SHA-256 digest of a byte list, as 32 bytes. -/
def sha256 (m : List Nat) : List Nat :=
  let padded := sha256_pad m
  let final := (chunks64_fuel padded.length padded).foldl sha_compress sha_h0
  be_bytes 4 final.a ++ be_bytes 4 final.b ++ be_bytes 4 final.c ++ be_bytes 4 final.d
    ++ be_bytes 4 final.e ++ be_bytes 4 final.f ++ be_bytes 4 final.g
    ++ be_bytes 4 final.h

/-- Lowercase hex encoding of a byte list (the `hex` crate's `encode`). -/
def hex_encode (bytes : List Nat) : String :=
  String.mk (bytes.flatMap (fun b => [hex_digit (b / 16), hex_digit (b % 16)]))

/-- A migration (`Migration` in `chakra-migrate/src/migration.rs`).  The
creation timestamp is modelled as a `Nat` and the metadata map as an
association list. -/
structure Migration where
  id : String
  name : String
  description : Option String
  app : Option String
  dependencies : List String
  operations : List MigrationOperation
  reversible : Bool
  raw_sql_up : Option String
  raw_sql_down : Option String
  checksum : String
  created_at : Nat
  metadata : List (String × String)
deriving DecidableEq, Repr

/-- Constructor `Migration::new`. -/
def Migration.mk_new (id name : String) : Migration :=
  { id := id, name := name, description := none, app := none, dependencies := []
    operations := [], reversible := true, raw_sql_up := none, raw_sql_down := none
    checksum := "", created_at := 0, metadata := [] }

/-- `Migration::calculate_checksum` (migration.rs lines 103-120): feed the
hasher the JSON serialization of each operation in order, then the raw up-SQL
bytes if present, and hex-encode the digest.  The incremental `Sha256`
hasher is modelled as the byte buffer it has absorbed. -/
def Migration.calculate_checksum (m : Migration) : String :=
  let hasher : List Nat := []
  let hasher := m.operations.foldl
    (fun h op => h ++ utf8_bytes (serde_json_to_string op)) hasher
  let hasher := match m.raw_sql_up with
    | some sql => hasher ++ utf8_bytes sql
    | none => hasher
  hex_encode (sha256 hasher)

/-- `Migration::verify_checksum`: true iff the stored checksum is empty or
matches the recomputed one. -/
def Migration.verify_checksum (m : Migration) : Bool :=
  m.checksum.isEmpty || (m.checksum == m.calculate_checksum)

/-- `Migration::is_empty`. -/
def Migration.is_empty (m : Migration) : Bool :=
  m.operations.isEmpty && m.raw_sql_up.isNone

/-- The checksum as the spec words it: hex SHA-256 over the canonical
serialization of the operations list (each operation's JSON, concatenated)
followed by the raw up-SQL, if present. -/
def spec_checksum (m : Migration) : String :=
  hex_encode (sha256
    ((m.operations.map (fun op => utf8_bytes (serde_json_to_string op))).flatten
      ++ (match m.raw_sql_up with
          | some sql => utf8_bytes sql
          | none => [])))

/-- Folding buffer appends equals flattening the pieces. -/
lemma foldl_append_flatten {α β : Type} (f : α → List β) (ops : List α) :
    ∀ init : List β,
      ops.foldl (fun h op => h ++ f op) init = init ++ (ops.map f).flatten := by
  induction ops with
  | nil => intro init; simp
  | cons op rest ih =>
      intro init
      rw [List.foldl_cons, ih (init ++ f op)]
      simp

/-- The checksum depends only on the serialized operations and the raw
up-SQL: equal serializations and equal raw SQL give equal checksums. -/
lemma checksum_congr (m1 m2 : Migration)
    (hops : m1.operations.map serde_json_to_string =
      m2.operations.map serde_json_to_string)
    (hraw : m1.raw_sql_up = m2.raw_sql_up) :
    m1.calculate_checksum = m2.calculate_checksum := by
  simp only [Migration.calculate_checksum]
  rw [foldl_append_flatten, foldl_append_flatten, hraw]
  have hflat : (m1.operations.map (fun op => utf8_bytes (serde_json_to_string op))).flatten
      = (m2.operations.map (fun op => utf8_bytes (serde_json_to_string op))).flatten := by
    have h1 : m1.operations.map (fun op => utf8_bytes (serde_json_to_string op))
        = (m1.operations.map serde_json_to_string).map utf8_bytes := by
      rw [List.map_map]
      rfl
    have h2 : m2.operations.map (fun op => utf8_bytes (serde_json_to_string op))
        = (m2.operations.map serde_json_to_string).map utf8_bytes := by
      rw [List.map_map]
      rfl
    rw [h1, h2, hops]
  rw [hflat]

/-- Claim C6 (amended): the checksum is the hex SHA-256 of the concatenated
operation serializations followed by the raw up-SQL; it depends on no other
field (identical operations and raw up-SQL give identical checksums, and
more generally identical serializations do); and `verify_checksum` is true
iff the stored checksum is empty or equals the recomputed one. -/
theorem migration_checksum_spec :
    (∀ m : Migration, m.calculate_checksum = spec_checksum m) ∧
    (∀ m1 m2 : Migration, m1.operations = m2.operations →
        m1.raw_sql_up = m2.raw_sql_up →
        m1.calculate_checksum = m2.calculate_checksum) ∧
    (∀ m1 m2 : Migration,
        m1.operations.map serde_json_to_string =
          m2.operations.map serde_json_to_string →
        m1.raw_sql_up = m2.raw_sql_up →
        m1.calculate_checksum = m2.calculate_checksum) ∧
    (∀ m : Migration, m.verify_checksum = true ↔
        (m.checksum = "" ∨ m.checksum = m.calculate_checksum)) := by
  refine ⟨?_, ?_, ?_, ?_⟩
  · intro m
    simp only [Migration.calculate_checksum, spec_checksum]
    rw [foldl_append_flatten]
    cases m.raw_sql_up <;> simp
  · intro m1 m2 hops hraw
    exact checksum_congr m1 m2 (by rw [hops]) hraw
  · intro m1 m2 hops hraw
    exact checksum_congr m1 m2 hops hraw
  · intro m
    unfold Migration.verify_checksum
    rw [Bool.or_eq_true, String.isEmpty_iff, beq_iff_eq]

/-- Column with a float default, for the C6 counterexample. -/
def c6_col (f : F64) : Column :=
  { name := "factor", column_type := ColumnType.DoublePrecision, nullable := true
    default := some (ColumnDefault.Float f), auto_increment := false, comment := none }

/-- Migration adding a float-defaulted column, for the C6 counterexample. -/
def c6_mig (f : F64) : Migration :=
  { id := "20240101_000000", name := "add_factor", description := none, app := none
    dependencies := [], operations := [MigrationOperation.AddColumn "t" (c6_col f)]
    reversible := true, raw_sql_up := none, raw_sql_down := none, checksum := ""
    created_at := 0, metadata := [] }

/-- The C6 witness companion: same migration as `c6_mig F64.nan` but with a
different name, to witness that unrelated fields do not affect the checksum. -/
def c6_mig_renamed : Migration :=
  { c6_mig F64.nan with name := "renamed_migration" }

/-- Claim C6 counterexample: mutating an operation does NOT always change the
checksum.  The two migrations differ in an operation (a NaN float default
versus an infinity one), yet serde_json serializes both non-finite floats as
`null`, so the hashed bytes — and hence the checksums — coincide. -/
theorem checksum_nan_inf_collision :
    (c6_mig F64.nan).operations ≠ (c6_mig F64.inf).operations ∧
    (c6_mig F64.nan).calculate_checksum = (c6_mig F64.inf).calculate_checksum := by
  constructor
  · decide
  · exact checksum_congr _ _ rfl rfl

/-- Witness for C6: unrelated fields do not affect the checksum, and
`verify_checksum` holds for an empty stored checksum. -/
theorem migration_checksum_spec_witness :
    (c6_mig F64.nan).calculate_checksum = c6_mig_renamed.calculate_checksum ∧
    ((c6_mig F64.nan).verify_checksum = true ↔
      ((c6_mig F64.nan).checksum = "" ∨
        (c6_mig F64.nan).checksum = (c6_mig F64.nan).calculate_checksum)) :=
  ⟨migration_checksum_spec.2.1 _ _ rfl rfl, migration_checksum_spec.2.2.2 _⟩

/-- Migration direction (`MigrationDirection`). -/
inductive MigrationDirection where
  | Up
  | Down
deriving DecidableEq, Repr

/-- Migration status (`MigrationStatus`). -/
inductive MigrationStatus where
  | Pending
  | Running
  | Applied
  | Failed
  | RolledBack
deriving DecidableEq, Repr

/-- A planned migration (`PlannedMigration` in `planner.rs`). -/
structure PlannedMigration where
  migration : Migration
  direction : MigrationDirection
deriving DecidableEq, Repr

/-- A history record (`MigrationRecord` in `history.rs`); timestamps are
modelled as `Nat`. -/
structure MigrationRecord where
  id : String
  name : String
  app : Option String
  status : MigrationStatus
  checksum : String
  applied_at : Nat
  duration_ms : Nat
  statements_count : Nat
  error_message : Option String
deriving DecidableEq, Repr

/-- A migration file (`MigrationFile` in `file.rs`). -/
structure MigrationFile where
  path : String
  migration : Migration
deriving DecidableEq, Repr

/-- The migration planner (`MigrationPlanner` in `planner.rs`).  The two
`HashMap`s (`id → Migration`, `id → dependencies`) are modelled as the
underlying lists; uniqueness of ids (the `HashMap` key invariant) is carried
as a hypothesis by the theorems. -/
structure MigrationPlanner where
  migrations : List Migration
  dependencies : List (String × List String)

/-- `MigrationPlanner::new`. -/
def MigrationPlanner.mk_new (files : List MigrationFile) : MigrationPlanner :=
  { migrations := files.map MigrationFile.migration
    dependencies := files.map (fun f => (f.migration.id, f.migration.dependencies)) }

/-- `self.migrations.get(id)` on the planner's map. -/
def MigrationPlanner.get_migration (p : MigrationPlanner) (id : String) : Option Migration :=
  p.migrations.find? (fun m => m.id == id)

/-- Build phase of `MigrationPlanner::topological_sort` (planner.rs lines
186-200): for every pending dependency edge, bump the dependent's in-degree
and record the edge in the adjacency map.  The maps are modelled as total
functions (`entry().or_insert` of a default is a no-op in that model). -/
def ts_build_step (ids : List String) (mid : String)
    (dg : (String → Nat) × (String → List String)) (dep : String) :
    (String → Nat) × (String → List String) :=
  if ids.contains dep then
    (fun n => if n = mid then dg.1 n + 1 else dg.1 n,
     fun n => if n = dep then dg.2 n ++ [mid] else dg.2 n)
  else dg

/-- Build phase, continued: fold the step over every migration's dependency
list. -/
def ts_build (migrations : List Migration) : (String → Nat) × (String → List String) :=
  let ids := migrations.map Migration.id
  migrations.foldl
    (fun dg m => m.dependencies.foldl (ts_build_step ids m.id) dg)
    (fun _ => 0, fun _ => [])

/-- Seed of Kahn's queue (planner.rs lines 203-207): the in-degree-zero
entries, in insertion order. -/
def ts_seed (migrations : List Migration) (deg : String → Nat) : List String :=
  (migrations.map Migration.id).filter (fun id => deg id == 0)

/-- Processing the dependents of a popped node (planner.rs lines 216-225):
decrement each dependent's degree, enqueueing it when the degree reaches 0. -/
def ts_process_outs (outs : List String) (deg : String → Nat) (queue : List String) :
    (String → Nat) × List String :=
  outs.foldl
    (fun (p : (String → Nat) × List String) tgt =>
      let d := p.1 tgt - 1
      (fun n => if n = tgt then d else p.1 n,
       if d = 0 then p.2 ++ [tgt] else p.2))
    (deg, queue)

/-- The Kahn main loop (planner.rs lines 211-226): pop the queue front, append
the matching migration to the result, process its dependents.  Fuel-structural;
one unit of fuel per iteration, and `fuel = number of migrations` suffices
because each node is enqueued (hence popped) at most once. -/
def ts_loop (migrations : List Migration) (graph : String → List String) :
    Nat → (String → Nat) → List String → List Migration → List Migration
  | 0, _, _, result => result
  | fuel + 1, deg, queue, result =>
      match queue with
      | [] => result
      | id :: rest =>
          let result := match migrations.find? (fun m => m.id == id) with
            | some m => result ++ [m]
            | none => result
          let p := ts_process_outs (graph id) deg rest
          ts_loop migrations graph fuel p.1 p.2 result

/-- `MigrationPlanner::topological_sort` (planner.rs lines 181-235). -/
def MigrationPlanner.topological_sort (_p : MigrationPlanner)
    (migrations : List Migration) : Except String (List Migration) :=
  let dg := ts_build migrations
  let queue := ts_seed migrations dg.1
  let result := ts_loop migrations dg.2 migrations.length dg.1 queue []
  if result.length ≠ migrations.length then
    Except.error "Circular dependency detected in migrations"
  else
    Except.ok result

/-- The pending migrations (planner.rs lines 56-61): those whose id is not
among the applied records. -/
def pending_of (p : MigrationPlanner) (applied : List MigrationRecord) : List Migration :=
  p.migrations.filter (fun m => !((applied.map MigrationRecord.id).contains m.id))

/-- Truncation to a target (planner.rs lines 72-83): keep entries up to and
including the first occurrence of the target id. -/
def plan_up_take_target : List Migration → String → List Migration
  | [], _ => []
  | m :: rest, target_id =>
      if m.id = target_id then [m] else m :: plan_up_take_target rest target_id

/-- `MigrationPlanner::plan_up` (planner.rs lines 47-95), with the history
represented by its `get_applied` result. -/
def MigrationPlanner.plan_up (p : MigrationPlanner) (applied : List MigrationRecord)
    (target : Option String) : Except String (List PlannedMigration) :=
  let pending := pending_of p applied
  if pending.isEmpty then
    Except.ok []
  else
    match p.topological_sort pending with
    | Except.error e => Except.error e
    | Except.ok sorted =>
        let to_run := match target with
          | some target_id => plan_up_take_target sorted target_id
          | none => sorted
        Except.ok (to_run.map
          (fun m => { migration := m, direction := MigrationDirection.Up }))

/-- The migrations selected for rollback (planner.rs lines 110-116): the last
`count` applied records in reverse order, looked up in the file set, with
records missing from the file set silently dropped (`filter_map`). -/
def MigrationPlanner.to_rollback (p : MigrationPlanner) (applied : List MigrationRecord)
    (count : Nat) : List Migration :=
  (applied.reverse.take count).filterMap (fun r => p.get_migration r.id)

/-- `MigrationPlanner::plan_down` (planner.rs lines 98-138). -/
def MigrationPlanner.plan_down (p : MigrationPlanner) (applied : List MigrationRecord)
    (count : Nat) : Except String (List PlannedMigration) :=
  if applied.isEmpty then
    Except.ok []
  else
    let to_rollback := p.to_rollback applied count
    match to_rollback.find? (fun m => !m.reversible) with
    | some m => Except.error ("Migration " ++ m.id ++ " is not reversible")
    | none =>
        Except.ok (to_rollback.map
          (fun m => { migration := m, direction := MigrationDirection.Down }))

/-- Claim C10: `plan_down` never fails because an applied record has no
matching migration file — such records are silently omitted, so the plan may
be shorter than `count`; it fails exactly when one of the migrations that ARE
present is non-reversible, and on success the plan is precisely the found
migrations, in reverse-applied order, as Down entries. -/
theorem plan_down_skips_missing (p : MigrationPlanner)
    (applied : List MigrationRecord) (count : Nat) :
    ((∃ e, p.plan_down applied count = Except.error e) ↔
      ∃ m ∈ p.to_rollback applied count, m.reversible = false) ∧
    ((∀ m ∈ p.to_rollback applied count, m.reversible = true) →
      p.plan_down applied count = Except.ok
        ((p.to_rollback applied count).map
          (fun m => { migration := m, direction := MigrationDirection.Down }))) ∧
    (p.to_rollback applied count).length ≤ count := by
  refine ⟨?_, ?_, ?_⟩
  · unfold MigrationPlanner.plan_down
    by_cases hemp : applied.isEmpty
    · simp only [if_pos hemp]
      have : applied = [] := List.isEmpty_iff.mp hemp
      subst this
      constructor
      · rintro ⟨e, he⟩
        exact absurd he (by simp)
      · rintro ⟨m, hm, -⟩
        exact absurd hm (by simp [MigrationPlanner.to_rollback])
    · simp only [if_neg hemp]
      cases hf : (p.to_rollback applied count).find? (fun m => !m.reversible) with
      | none =>
          simp only []
          constructor
          · rintro ⟨e, he⟩
            exact absurd he (by simp)
          · rintro ⟨m, hm, hrev⟩
            have := List.find?_eq_none.mp hf m hm
            simp [hrev] at this
      | some m =>
          simp only []
          constructor
          · intro _
            refine ⟨m, List.mem_of_find?_eq_some hf, ?_⟩
            have := List.find?_some hf
            simpa using this
          · intro _
            exact ⟨"Migration " ++ m.id ++ " is not reversible", rfl⟩
  · intro hall
    unfold MigrationPlanner.plan_down
    by_cases hemp : applied.isEmpty
    · simp only [if_pos hemp]
      have : applied = [] := List.isEmpty_iff.mp hemp
      subst this
      simp [MigrationPlanner.to_rollback]
    · simp only [if_neg hemp]
      have hf : (p.to_rollback applied count).find? (fun m => !m.reversible) = none := by
        apply List.find?_eq_none.mpr
        intro m hm
        simp [hall m hm]
      rw [hf]
  · unfold MigrationPlanner.to_rollback
    calc ((applied.reverse.take count).filterMap (fun r => p.get_migration r.id)).length
        ≤ (applied.reverse.take count).length := List.length_filterMap_le _ _
      _ ≤ count := List.length_take_le _ _

/-- Concrete reversible migration for the C10 witness. -/
def c10_m1 : Migration := Migration.mk_new "001" "first"

/-- Concrete planner holding only migration 001. -/
def c10_planner : MigrationPlanner :=
  { migrations := [c10_m1], dependencies := [("001", [])] }

/-- Concrete history records: 001 and a record (090) with no matching file. -/
def c10_rec (id : String) : MigrationRecord :=
  { id := id, name := "r", app := none, status := MigrationStatus.Applied
    checksum := "", applied_at := 0, duration_ms := 0, statements_count := 0
    error_message := none }

/-- Witness for C10: rolling back the last two applied records, one of which
has no matching migration file, silently plans only the present one. -/
theorem plan_down_skips_missing_witness :
    c10_planner.plan_down [c10_rec "001", c10_rec "090"] 2 = Except.ok
      [{ migration := c10_m1, direction := MigrationDirection.Down }] :=
  (plan_down_skips_missing c10_planner [c10_rec "001", c10_rec "090"] 2).2.1
    (by decide)

/-- The pending dependencies of a migration: its declared dependencies that
lie in the given migration set (external dependencies are ignored). -/
def deps_in (migrations : List Migration) (m : Migration) : List String :=
  m.dependencies.filter (fun d => (migrations.map Migration.id).contains d)

/-- The pending dependencies of the migration with a given id (empty when no
migration has that id). -/
def deps_of (migrations : List Migration) (n : String) : List String :=
  match migrations.find? (fun m => m.id == n) with
  | some m => deps_in migrations m
  | none => []

/-- Degree component of the inner build fold, pointwise. -/
lemma ts_inner_fst (ids : List String) (mid : String) :
    ∀ (deps : List String) (f : String → Nat) (g : String → List String) (n : String),
      (deps.foldl (ts_build_step ids mid) (f, g)).1 n =
        if n = mid then f n + (deps.filter (fun d => ids.contains d)).length else f n := by
  intro deps
  induction deps with
  | nil =>
      intro f g n
      simp only [List.foldl_nil, List.filter_nil, List.length_nil, Nat.add_zero]
      split <;> rfl
  | cons dep deps ih =>
      intro f g n
      rw [List.foldl_cons]
      by_cases hc : ids.contains dep = true
      · have hstep : ts_build_step ids mid (f, g) dep =
            (fun n => if n = mid then f n + 1 else f n,
             fun n => if n = dep then g n ++ [mid] else g n) := by
          unfold ts_build_step
          rw [if_pos hc]
        rw [hstep, ih]
        rw [List.filter_cons, if_pos hc]
        by_cases hn : n = mid <;> simp [hn] <;> omega
      · have hstep : ts_build_step ids mid (f, g) dep = (f, g) := by
          unfold ts_build_step
          rw [if_neg hc]
        rw [hstep, ih]
        rw [List.filter_cons, if_neg hc]

/-- Adjacency component of the inner build fold, pointwise. -/
lemma ts_inner_snd (ids : List String) (mid : String) :
    ∀ (deps : List String) (f : String → Nat) (g : String → List String) (n : String),
      (deps.foldl (ts_build_step ids mid) (f, g)).2 n =
        g n ++ List.replicate ((deps.filter (fun d => ids.contains d)).count n) mid := by
  intro deps
  induction deps with
  | nil =>
      intro f g n
      simp
  | cons dep deps ih =>
      intro f g n
      rw [List.foldl_cons]
      by_cases hc : ids.contains dep = true
      · have hstep : ts_build_step ids mid (f, g) dep =
            (fun n => if n = mid then f n + 1 else f n,
             fun n => if n = dep then g n ++ [mid] else g n) := by
          unfold ts_build_step
          rw [if_pos hc]
        rw [hstep, ih]
        rw [List.filter_cons, if_pos hc]
        by_cases hn : n = dep
        · subst hn
          rw [List.count_cons_self, if_pos rfl, List.replicate_succ]
          simp
        · rw [List.count_cons_of_ne hn, if_neg hn]
      · have hstep : ts_build_step ids mid (f, g) dep = (f, g) := by
          unfold ts_build_step
          rw [if_neg hc]
        rw [hstep, ih]
        rw [List.filter_cons, if_neg hc]

/-- Degree component of the outer build fold: initial value plus the summed
pending-dependency counts of migrations with the given id. -/
lemma ts_outer_fst (ids : List String) :
    ∀ (ms : List Migration) (f : String → Nat) (g : String → List String) (n : String),
      (ms.foldl (fun dg m => m.dependencies.foldl (ts_build_step ids m.id) dg) (f, g)).1 n
        = f n + (ms.map (fun m =>
            if n = m.id then (m.dependencies.filter (fun d => ids.contains d)).length
            else 0)).sum := by
  intro ms
  induction ms with
  | nil => intro f g n; simp
  | cons m ms ih =>
      intro f g n
      rw [List.foldl_cons]
      have heta : m.dependencies.foldl (ts_build_step ids m.id) (f, g) =
          ((m.dependencies.foldl (ts_build_step ids m.id) (f, g)).1,
           (m.dependencies.foldl (ts_build_step ids m.id) (f, g)).2) := rfl
      rw [heta, ih, ts_inner_fst]
      simp only [List.map_cons, List.sum_cons]
      by_cases hn : n = m.id <;> simp [hn] <;> omega

/-- Adjacency component of the outer build fold. -/
lemma ts_outer_snd (ids : List String) :
    ∀ (ms : List Migration) (f : String → Nat) (g : String → List String) (n : String),
      (ms.foldl (fun dg m => m.dependencies.foldl (ts_build_step ids m.id) dg) (f, g)).2 n
        = g n ++ (ms.map (fun m =>
            List.replicate ((m.dependencies.filter (fun d => ids.contains d)).count n)
              m.id)).flatten := by
  intro ms
  induction ms with
  | nil => intro f g n; simp
  | cons m ms ih =>
      intro f g n
      rw [List.foldl_cons]
      have heta : m.dependencies.foldl (ts_build_step ids m.id) (f, g) =
          ((m.dependencies.foldl (ts_build_step ids m.id) (f, g)).1,
           (m.dependencies.foldl (ts_build_step ids m.id) (f, g)).2) := rfl
      rw [heta, ih, ts_inner_snd]
      simp

/-- On a set with distinct ids, `find?` by a member's id returns that member. -/
lemma find?_id_unique {migrations : List Migration}
    (hnodup : (migrations.map Migration.id).Nodup) {m : Migration}
    (hm : m ∈ migrations) :
    migrations.find? (fun x => x.id == m.id) = some m := by
  induction migrations with
  | nil => exact absurd hm (by simp)
  | cons x rest ih =>
      simp only [List.map_cons, List.nodup_cons] at hnodup
      by_cases hx : x.id = m.id
      · have : m = x := by
          rcases List.mem_cons.mp hm with h | h
          · exact h
          · exact absurd (hx ▸ List.mem_map_of_mem Migration.id h) hnodup.1
        subst this
        rw [List.find?_cons_of_pos _ (by simp)]
      · have hmem : m ∈ rest := by
          rcases List.mem_cons.mp hm with h | h
          · exact absurd (h ▸ rfl) (fun hEq => hx hEq)
          · exact h
        rw [List.find?_cons_of_neg _ (by simpa using hx)]
        exact ih hnodup.2 hmem

/-- A sum of id-guarded terms reduces to the term of the unique matching
migration. -/
lemma sum_single_id {migrations : List Migration}
    (hnodup : (migrations.map Migration.id).Nodup) (n : String) (k : Migration → Nat) :
    (migrations.map (fun m => if n = m.id then k m else 0)).sum =
      (match migrations.find? (fun m => m.id == n) with
       | some m => k m
       | none => 0) := by
  induction migrations with
  | nil => simp
  | cons x rest ih =>
      simp only [List.map_cons, List.nodup_cons] at hnodup
      by_cases hx : x.id = n
      · rw [List.find?_cons_of_pos _ (by simp [hx])]
        simp only [List.map_cons, List.sum_cons, if_pos hx.symm]
        have hzero : (rest.map (fun m => if n = m.id then k m else 0)).sum = 0 := by
          apply List.sum_eq_zero
          intro v hv
          simp only [List.mem_map] at hv
          obtain ⟨m, hm, rfl⟩ := hv
          have : n ≠ m.id := by
            intro hEq
            exact hnodup.1 (hx ▸ hEq ▸ List.mem_map_of_mem Migration.id hm)
          rw [if_neg this]
        rw [hzero]
        rfl
      · rw [List.find?_cons_of_neg _ (by simpa using hx)]
        simp only [List.map_cons, List.sum_cons]
        rw [if_neg (fun h : n = x.id => hx h.symm), Nat.zero_add]
        exact ih hnodup.2

/-- The built in-degree of `n` is the number of pending dependencies of the
migration with id `n`. -/
lemma ts_build_deg {migrations : List Migration}
    (hnodup : (migrations.map Migration.id).Nodup) (n : String) :
    (ts_build migrations).1 n = (deps_of migrations n).length := by
  unfold ts_build
  rw [ts_outer_fst, sum_single_id hnodup]
  unfold deps_of deps_in
  cases migrations.find? (fun m => m.id == n) <;> simp

/-- The number of occurrences of `n` among the built dependents of `d` is the
number of occurrences of `d` among the pending dependencies of `n`. -/
lemma ts_build_graph_count {migrations : List Migration}
    (hnodup : (migrations.map Migration.id).Nodup) (d n : String) :
    ((ts_build migrations).2 d).count n = (deps_of migrations n).count d := by
  unfold ts_build
  rw [ts_outer_snd]
  rw [List.nil_append, List.count_flatten]
  have hmap : (migrations.map (fun m =>
      List.replicate ((m.dependencies.filter
        (fun x => (migrations.map Migration.id).contains x)).count d) m.id)).map
          (List.count n) =
      migrations.map (fun m => if n = m.id then (deps_in migrations m).count d else 0) := by
    rw [List.map_map]
    apply List.map_congr_left
    intro m _
    simp only [Function.comp]
    rw [List.count_replicate]
    unfold deps_in
    by_cases hn : m.id = n
    · rw [if_pos (by simp [hn]), if_pos hn.symm]
    · rw [if_neg (by simpa using hn), if_neg (fun h => hn h.symm)]
  rw [hmap, sum_single_id hnodup]
  unfold deps_of
  cases migrations.find? (fun m => m.id == n) <;> simp

/-- Counting against an extended membership predicate splits when the new
element is fresh. -/
lemma countP_contains_append {P : List String} {d : String} (hd : d ∉ P) :
    ∀ l : List String,
      l.countP (fun x => (P ++ [d]).contains x) =
        l.countP (fun x => P.contains x) + l.count d := by
  intro l
  induction l with
  | nil => simp
  | cons c rest ih =>
      rw [List.countP_cons, List.countP_cons, List.count_cons, ih]
      have hsplit : ((P ++ [d]).contains c = true) ↔ (P.contains c = true ∨ c = d) := by
        simp [List.mem_append]
      by_cases h1 : P.contains c = true <;> by_cases h2 : c = d
      · exact absurd (h2 ▸ (by simpa using h1)) hd
      · rw [if_pos (hsplit.mpr (Or.inl h1)), if_pos h1, if_neg (by simpa using h2)]
        omega
      · rw [if_pos (hsplit.mpr (Or.inr h2)), if_neg h1, if_pos (by simpa using h2)]
        omega
      · rw [if_neg (fun h => (hsplit.mp h).elim h1 h2), if_neg h1,
          if_neg (by simpa using h2)]
        omega

/-- Specification of `ts_process_outs`: provided no degree underflows, the
final degrees drop by the occurrence counts, and the queue is extended by
exactly the nodes whose degree reached zero, each once. -/
lemma ts_process_outs_spec : ∀ (outs : List String) (deg : String → Nat)
    (queue : List String), (∀ n, outs.count n ≤ deg n) →
    ((ts_process_outs outs deg queue).1 = fun n => deg n - outs.count n) ∧
    (∃ newly, (ts_process_outs outs deg queue).2 = queue ++ newly ∧ newly.Nodup ∧
      (∀ n, n ∈ newly ↔ (0 < outs.count n ∧ deg n = outs.count n))) := by
  intro outs
  induction outs with
  | nil =>
      intro deg queue hb
      constructor
      · funext n
        simp [ts_process_outs]
      · exact ⟨[], by simp [ts_process_outs], by simp, by simp⟩
  | cons t rest ih =>
      intro deg queue hb
      have hstep : ts_process_outs (t :: rest) deg queue =
          ts_process_outs rest (fun n => if n = t then deg t - 1 else deg n)
            (if deg t - 1 = 0 then queue ++ [t] else queue) := by
        unfold ts_process_outs
        rw [List.foldl_cons]
      have hbt : rest.count t + 1 ≤ deg t := by
        have := hb t
        rwa [List.count_cons_self] at this
      have hbound1 : ∀ n, rest.count n ≤ (fun n => if n = t then deg t - 1 else deg n) n := by
        intro n
        by_cases hn : n = t
        · subst hn
          simp only []
          rw [if_true]
          omega
        · simp only []
          rw [if_neg hn]
          have := hb n
          rwa [List.count_cons_of_ne hn] at this
      obtain ⟨hdeg, newly', hq, hnd, hmem⟩ :=
        ih (fun n => if n = t then deg t - 1 else deg n)
          (if deg t - 1 = 0 then queue ++ [t] else queue) hbound1
      constructor
      · rw [hstep, hdeg]
        funext n
        by_cases hn : n = t
        · subst hn
          simp only [List.count_cons_self]
          rw [if_true]
          omega
        · simp only [List.count_cons_of_ne hn]
          rw [if_neg hn]
      · refine ⟨(if deg t - 1 = 0 then [t] else []) ++ newly', ?_, ?_, ?_⟩
        · rw [hstep, hq]
          by_cases hd0 : deg t - 1 = 0
          · rw [if_pos hd0, if_pos hd0, List.append_assoc]
          · rw [if_neg hd0, if_neg hd0]
            simp
        · by_cases hd0 : deg t - 1 = 0
          · rw [if_pos hd0]
            have ht : t ∉ newly' := by
              intro hmm
              have hcc := (hmem t).mp hmm
              simp only [] at hcc
              rw [if_true] at hcc
              omega
            simp only [List.singleton_append, List.nodup_cons]
            exact ⟨ht, hnd⟩
          · rw [if_neg hd0]
            simpa using hnd
        · intro n
          by_cases hn : n = t
          · subst hn
            rw [List.count_cons_self]
            have hm' := hmem n
            simp only [] at hm'
            rw [if_true] at hm'
            constructor
            · intro hin
              rcases List.mem_append.mp hin with h | h
              · have hd0 : deg n - 1 = 0 := by
                  by_cases hd0 : deg n - 1 = 0
                  · exact hd0
                  · rw [if_neg hd0] at h
                    exact absurd h (by simp)
                constructor
                · omega
                · omega
              · have := hm'.mp h
                exact ⟨by omega, by omega⟩
            · intro ⟨hpos, hEq⟩
              by_cases hc0 : rest.count n = 0
              · have hd0 : deg n - 1 = 0 := by omega
                apply List.mem_append.mpr
                left
                rw [if_pos hd0]
                simp
              · apply List.mem_append.mpr
                right
                apply hm'.mpr
                exact ⟨by omega, by omega⟩
          · rw [List.count_cons_of_ne hn]
            have hm' := hmem n
            simp only [] at hm'
            rw [if_neg hn] at hm'
            constructor
            · intro hin
              rcases List.mem_append.mp hin with h | h
              · exfalso
                by_cases hd0 : deg t - 1 = 0
                · rw [if_pos hd0] at h
                  exact hn (by simpa using h)
                · rw [if_neg hd0] at h
                  exact absurd h (by simp)
              · exact hm'.mp h
            · intro hcond
              exact List.mem_append.mpr (Or.inr (hm'.mpr hcond))

/-- The Kahn-loop invariant.  `result` holds the emitted migrations (their
ids are the processed nodes), `queue` the discovered-but-unprocessed nodes;
degrees track the number of pending dependencies not yet processed. -/
structure TsInv (migrations : List Migration) (deg : String → Nat)
    (queue : List String) (result : List Migration) : Prop where
  mem_mig : ∀ m ∈ result, m ∈ migrations
  nodup_res : (result.map Migration.id).Nodup
  nodup_queue : queue.Nodup
  disj : ∀ x ∈ result.map Migration.id, x ∉ queue
  sub_res : ∀ x ∈ result.map Migration.id, x ∈ migrations.map Migration.id
  sub_queue : ∀ x ∈ queue, x ∈ migrations.map Migration.id
  zero_iff : ∀ n ∈ migrations.map Migration.id,
    ((n ∈ result.map Migration.id ∨ n ∈ queue) ↔ deg n = 0)
  deg_eq : ∀ n, deg n = (deps_of migrations n).length -
    (deps_of migrations n).countP (fun d => (result.map Migration.id).contains d)
  ordering : ∀ i (hi : i < result.length),
    ∀ dep ∈ deps_in migrations (result.get ⟨i, hi⟩),
      dep ∈ (result.take i).map Migration.id

/-- What holds of the list the Kahn loop returns: all entries are migrations,
ids are distinct, every entry's pending dependencies occur earlier, and any
id not in the output has some pending dependency also not in the output. -/
def ts_loop_good (migrations res : List Migration) : Prop :=
  (∀ m ∈ res, m ∈ migrations) ∧
  (res.map Migration.id).Nodup ∧
  (∀ i (hi : i < res.length), ∀ dep ∈ deps_in migrations (res.get ⟨i, hi⟩),
      dep ∈ (res.take i).map Migration.id) ∧
  (∀ n ∈ migrations.map Migration.id, n ∉ res.map Migration.id →
      ∃ dep ∈ deps_of migrations n, dep ∉ res.map Migration.id)

/-- If fewer than all pending dependencies are in `P`, one of them is not. -/
lemma countP_lt_exists {l P : List String}
    (h : l.countP (fun d => P.contains d) < l.length) :
    ∃ dep ∈ l, dep ∉ P := by
  by_contra hc
  push_neg at hc
  have hall : ∀ d ∈ l, (fun d => P.contains d) d = true := by
    intro d hd
    simpa using hc d hd
  rw [List.countP_eq_length.mpr hall] at h
  exact absurd h (lt_irrefl _)

/-- If all pending dependencies are counted, they are all members. -/
lemma countP_eq_length_subset {l P : List String}
    (h : l.countP (fun d => P.contains d) = l.length) : ∀ d ∈ l, d ∈ P := by
  intro d hd
  simpa using List.countP_eq_length.mp h d hd

/-- A list of migrations whose ids form a permutation of the full id list is
a permutation of the full migration list (ids are distinct). -/
lemma perm_of_ids_perm {migrations res : List Migration}
    (hnodup : (migrations.map Migration.id).Nodup)
    (hmem : ∀ m ∈ res, m ∈ migrations)
    (hperm : (res.map Migration.id).Perm (migrations.map Migration.id)) :
    res.Perm migrations := by
  have hres_map_nodup : (res.map Migration.id).Nodup := hperm.nodup_iff.mpr hnodup
  have hres_nodup : res.Nodup := List.Nodup.of_map _ hres_map_nodup
  have hmig_nodup : migrations.Nodup := List.Nodup.of_map _ hnodup
  rw [List.perm_ext_iff_of_nodup hres_nodup hmig_nodup]
  intro m
  constructor
  · exact hmem m
  · intro hm
    have hid : m.id ∈ res.map Migration.id := by
      have : m.id ∈ migrations.map Migration.id := List.mem_map_of_mem _ hm
      exact (hperm.mem_iff).mpr this
    obtain ⟨m2, hm2, hm2id⟩ := List.mem_map.mp hid
    have : m2 = m := List.inj_on_of_nodup_map hnodup (hmem m2 hm2) hm hm2id
    exact this ▸ hm2

/-- With an empty queue, the invariant already yields the loop postcondition. -/
lemma ts_inv_good_of_empty_queue {migrations : List Migration} {deg : String → Nat}
    {result : List Migration} (inv : TsInv migrations deg [] result) :
    ts_loop_good migrations result := by
  refine ⟨inv.mem_mig, inv.nodup_res, inv.ordering, ?_⟩
  intro n hn hnotin
  have hdeg : deg n ≠ 0 := by
    intro h0
    rcases (inv.zero_iff n hn).mpr h0 with h | h
    · exact hnotin h
    · exact absurd h (by simp)
  have hde := inv.deg_eq n
  have hle : (deps_of migrations n).countP
      (fun d => (result.map Migration.id).contains d) ≤ (deps_of migrations n).length :=
    List.countP_le_length _
  have hlt : (deps_of migrations n).countP
      (fun d => (result.map Migration.id).contains d) < (deps_of migrations n).length := by
    omega
  obtain ⟨dep, hdep, hdepnot⟩ := countP_lt_exists hlt
  exact ⟨dep, hdep, hdepnot⟩

/-- Once the result holds as many entries as there are migrations, every id
is processed and the loop postcondition holds. -/
lemma ts_inv_good_of_full {migrations : List Migration} {deg : String → Nat}
    {queue : List String} {result : List Migration}
    (hnodup : (migrations.map Migration.id).Nodup)
    (inv : TsInv migrations deg queue result)
    (hlen : migrations.length ≤ result.length) :
    ts_loop_good migrations result := by
  have hsub : (result.map Migration.id) ⊆ (migrations.map Migration.id) :=
    fun x hx => inv.sub_res x hx
  have hsp : (result.map Migration.id).Subperm (migrations.map Migration.id) :=
    List.subperm_of_subset inv.nodup_res hsub
  have hperm : (result.map Migration.id).Perm (migrations.map Migration.id) :=
    hsp.perm_of_length_le (by simpa using hlen)
  refine ⟨inv.mem_mig, inv.nodup_res, inv.ordering, ?_⟩
  intro n hn hnot
  exact absurd (hperm.mem_iff.mpr hn) hnot

/-- Main loop lemma: from any invariant state with enough fuel, the Kahn loop
returns a good list. -/
lemma ts_loop_spec {migrations : List Migration}
    (hnodup : (migrations.map Migration.id).Nodup) :
    ∀ (fuel : Nat) (deg : String → Nat) (queue : List String) (result : List Migration),
      TsInv migrations deg queue result →
      migrations.length ≤ fuel + result.length →
      ts_loop_good migrations
        (ts_loop migrations (ts_build migrations).2 fuel deg queue result) := by
  intro fuel
  induction fuel with
  | zero =>
      intro deg queue result inv hlen
      exact ts_inv_good_of_full hnodup inv (by simpa using hlen)
  | succ fuel ih =>
      intro deg queue result inv hlen
      cases queue with
      | nil => exact ts_inv_good_of_empty_queue inv
      | cons id rest =>
          have hid_ids : id ∈ migrations.map Migration.id := inv.sub_queue id (by simp)
          obtain ⟨m0, hm0_mem, hm0_id⟩ := List.mem_map.mp hid_ids
          have hfind : migrations.find? (fun x => x.id == id) = some m0 := by
            have := find?_id_unique hnodup hm0_mem
            rwa [hm0_id] at this
          have hid_not_proc : id ∉ result.map Migration.id := by
            intro h
            exact inv.disj id h (by simp)
          have hdeg_id : deg id = 0 := (inv.zero_iff id hid_ids).mp (Or.inr (by simp))
          have hcnt : ∀ n, ((ts_build migrations).2 id).count n =
              (deps_of migrations n).count id :=
            fun n => ts_build_graph_count hnodup id n
          have hsplitP : ∀ n, (deps_of migrations n).countP
                (fun d => ((result.map Migration.id) ++ [id]).contains d) =
              (deps_of migrations n).countP
                (fun d => (result.map Migration.id).contains d)
                + (deps_of migrations n).count id :=
            fun n => countP_contains_append hid_not_proc _
          have hcPle : ∀ n, (deps_of migrations n).countP
                (fun d => ((result.map Migration.id) ++ [id]).contains d) ≤
              (deps_of migrations n).length :=
            fun n => List.countP_le_length _
          have hbound : ∀ n, ((ts_build migrations).2 id).count n ≤ deg n := by
            intro n
            rw [hcnt n, inv.deg_eq n]
            have h1 := hcPle n
            rw [hsplitP n] at h1
            omega
          obtain ⟨hdeg', newly, hq', hnd_newly, hmem_newly⟩ :=
            ts_process_outs_spec ((ts_build migrations).2 id) deg rest hbound
          have hloop : ts_loop migrations (ts_build migrations).2 (fuel + 1) deg
              (id :: rest) result =
              ts_loop migrations (ts_build migrations).2 fuel
                (ts_process_outs ((ts_build migrations).2 id) deg rest).1
                (ts_process_outs ((ts_build migrations).2 id) deg rest).2
                (result ++ [m0]) := by
            show ts_loop migrations (ts_build migrations).2 fuel
                (ts_process_outs ((ts_build migrations).2 id) deg rest).1
                (ts_process_outs ((ts_build migrations).2 id) deg rest).2
                (match migrations.find? (fun m => m.id == id) with
                 | some m => result ++ [m]
                 | none => result) = _
            rw [hfind]
          rw [hloop, hdeg', hq']
          have hmapP : (result ++ [m0]).map Migration.id =
              result.map Migration.id ++ [id] := by
            simp [hm0_id]
          have hrest_nodup : rest.Nodup := (List.nodup_cons.mp inv.nodup_queue).2
          have hid_not_rest : id ∉ rest := (List.nodup_cons.mp inv.nodup_queue).1
          have hnot_newly : ∀ n, deg n = 0 → n ∉ newly := by
            intro n h0 hin
            have hc := (hmem_newly n).mp hin
            omega
          have hnewly_ids : ∀ n ∈ newly, n ∈ migrations.map Migration.id := by
            intro n hn
            have hc := (hmem_newly n).mp hn
            have hcpos : 0 < (deps_of migrations n).count id := by
              have := hc.1
              rwa [hcnt n] at this
            cases hf2 : migrations.find? (fun m => m.id == n) with
            | none =>
                exfalso
                have : deps_of migrations n = [] := by
                  unfold deps_of
                  rw [hf2]
                rw [this] at hcpos
                simp at hcpos
            | some m1 =>
                have h1 : m1.id = n := by
                  have := List.find?_some hf2
                  simpa using this
                have h2 : m1 ∈ migrations := List.mem_of_find?_eq_some hf2
                exact h1 ▸ List.mem_map_of_mem Migration.id h2
          have hdeps_id_sub : ∀ d ∈ deps_of migrations id, d ∈ result.map Migration.id := by
            have hde := inv.deg_eq id
            rw [hdeg_id] at hde
            have hle : (deps_of migrations id).countP
                (fun d => (result.map Migration.id).contains d) ≤
                (deps_of migrations id).length := List.countP_le_length _
            have heq : (deps_of migrations id).countP
                (fun d => (result.map Migration.id).contains d) =
                (deps_of migrations id).length := by omega
            exact countP_eq_length_subset heq
          refine ih _ _ _ ⟨?_, ?_, ?_, ?_, ?_, ?_, ?_, ?_, ?_⟩ ?_
          · intro m hm
            rcases List.mem_append.mp hm with h | h
            · exact inv.mem_mig m h
            · have : m = m0 := by simpa using h
              exact this ▸ hm0_mem
          · rw [hmapP]
            exact List.nodup_append.mpr ⟨inv.nodup_res, by simp,
              fun a ha hb => hid_not_proc ((by simpa using hb) ▸ ha)⟩
          · exact List.nodup_append.mpr ⟨hrest_nodup, hnd_newly,
              fun a ha hb => hnot_newly a ((inv.zero_iff a
                (inv.sub_queue a (List.mem_cons_of_mem id ha))).mp
                (Or.inr (List.mem_cons_of_mem id ha))) hb⟩
          · intro x hx hxq
            rw [hmapP] at hx
            rcases List.mem_append.mp hxq with hq1 | hq2
            · rcases List.mem_append.mp hx with h | h
              · exact inv.disj x h (List.mem_cons_of_mem id hq1)
              · have : x = id := by simpa using h
                exact hid_not_rest (this ▸ hq1)
            · rcases List.mem_append.mp hx with h | h
              · exact hnot_newly x ((inv.zero_iff x (inv.sub_res x h)).mp (Or.inl h)) hq2
              · have : x = id := by simpa using h
                exact hnot_newly x (this ▸ hdeg_id) (this ▸ hq2)
          · intro x hx
            rw [hmapP] at hx
            rcases List.mem_append.mp hx with h | h
            · exact inv.sub_res x h
            · have : x = id := by simpa using h
              exact this ▸ hid_ids
          · intro x hx
            rcases List.mem_append.mp hx with h | h
            · exact inv.sub_queue x (List.mem_cons_of_mem id h)
            · exact hnewly_ids x h
          · intro n hn
            show (n ∈ (result ++ [m0]).map Migration.id ∨ n ∈ rest ++ newly) ↔
              deg n - ((ts_build migrations).2 id).count n = 0
            rw [hmapP]
            constructor
            · intro hmem
              have hb := hbound n
              rcases hmem with h | h
              · rcases List.mem_append.mp h with h1 | h1
                · have h0 : deg n = 0 :=
                    (inv.zero_iff n (inv.sub_res n h1)).mp (Or.inl h1)
                  omega
                · have hEq : n = id := by simpa using h1
                  subst hEq
                  omega
              · rcases List.mem_append.mp h with h1 | h1
                · have h0 : deg n = 0 :=
                    (inv.zero_iff n (inv.sub_queue n (List.mem_cons_of_mem id h1))).mp
                      (Or.inr (List.mem_cons_of_mem id h1))
                  omega
                · have hc := (hmem_newly n).mp h1
                  omega
            · intro h0
              have hb := hbound n
              by_cases hcpos : 0 < ((ts_build migrations).2 id).count n
              · have : n ∈ newly := (hmem_newly n).mpr ⟨hcpos, by omega⟩
                exact Or.inr (List.mem_append.mpr (Or.inr this))
              · have hdz : deg n = 0 := by omega
                rcases (inv.zero_iff n hn).mpr hdz with h | h
                · exact Or.inl (List.mem_append.mpr (Or.inl h))
                · rcases List.mem_cons.mp h with h1 | h1
                  · exact Or.inl (List.mem_append.mpr (Or.inr (by simp [h1])))
                  · exact Or.inr (List.mem_append.mpr (Or.inl h1))
          · intro n
            show deg n - ((ts_build migrations).2 id).count n =
              (deps_of migrations n).length - (deps_of migrations n).countP
                (fun d => ((result ++ [m0]).map Migration.id).contains d)
            rw [hmapP, hsplitP n, hcnt n, inv.deg_eq n]
            have h1 := hcPle n
            rw [hsplitP n] at h1
            omega
          · intro i hi
            have hi' : i < result.length + 1 := by simpa using hi
            by_cases hilt : i < result.length
            · have hget : (result ++ [m0]).get ⟨i, hi⟩ = result.get ⟨i, hilt⟩ := by
                rw [List.get_eq_getElem, List.get_eq_getElem]
                exact List.getElem_append_left hilt
              rw [hget, List.take_append_of_le_length (le_of_lt hilt)]
              exact inv.ordering i hilt
            · have hieq : i = result.length := by omega
              have hget : (result ++ [m0]).get ⟨i, hi⟩ = m0 := by
                rw [List.get_eq_getElem]
                exact List.getElem_concat_length result m0 i hieq _
              rw [hget, hieq, List.take_append_of_le_length le_rfl, List.take_length]
              intro dep hdep
              apply hdeps_id_sub
              unfold deps_of
              rw [hfind]
              exact hdep
          · have : (result ++ [m0]).length = result.length + 1 := by simp
            omega

/-- The initial Kahn state (built degrees, seed queue, empty result)
satisfies the loop invariant. -/
lemma ts_init_inv {migrations : List Migration}
    (hnodup : (migrations.map Migration.id).Nodup) :
    TsInv migrations (ts_build migrations).1
      (ts_seed migrations (ts_build migrations).1) [] := by
  refine ⟨by simp, by simp, ?_, by simp, by simp, ?_, ?_, ?_, ?_⟩
  · unfold ts_seed
    exact hnodup.filter _
  · intro x hx
    unfold ts_seed at hx
    exact List.mem_of_mem_filter hx
  · intro n hn
    constructor
    · intro h
      rcases h with h | h
      · exact absurd h (by simp)
      · unfold ts_seed at h
        have := List.of_mem_filter h
        simpa using this
    · intro h
      refine Or.inr ?_
      unfold ts_seed
      exact List.mem_filter.mpr ⟨hn, by simpa using h⟩
  · intro n
    rw [ts_build_deg hnodup]
    have h0 : (deps_of migrations n).countP
        (fun d => (([] : List Migration).map Migration.id).contains d) = 0 := by
      apply List.countP_eq_zero.mpr
      intro a _
      simp
    rw [h0]
    omega
  · intro i hi
    exact absurd hi (by simp)

/-- A topological order of a migration set: a permutation of it in which
every entry's pending dependencies (external ones are ignored by `deps_in`)
occur strictly earlier. -/
def IsTopoOrder (migrations order : List Migration) : Prop :=
  order.Perm migrations ∧
  ∀ i (hi : i < order.length), ∀ dep ∈ deps_in migrations (order.get ⟨i, hi⟩),
    dep ∈ (order.take i).map Migration.id

/-- The Kahn-loop output of `topological_sort`, named for reuse. -/
def ts_result (migrations : List Migration) : List Migration :=
  ts_loop migrations (ts_build migrations).2 migrations.length
    (ts_build migrations).1 (ts_seed migrations (ts_build migrations).1) []

/-- Unfolding of `topological_sort` through its let-bindings. -/
lemma topological_sort_eq (p : MigrationPlanner) (migrations : List Migration) :
    p.topological_sort migrations =
      if (ts_result migrations).length ≠ migrations.length then
        Except.error "Circular dependency detected in migrations"
      else Except.ok (ts_result migrations) := rfl

/-- The loop output is good whenever the ids are distinct. -/
lemma ts_result_good {migrations : List Migration}
    (hnodup : (migrations.map Migration.id).Nodup) :
    ts_loop_good migrations (ts_result migrations) :=
  ts_loop_spec hnodup migrations.length (ts_build migrations).1
    (ts_seed migrations (ts_build migrations).1) [] (ts_init_inv hnodup) (by simp)

/-- Soundness: an ok result of the sort is a topological order. -/
lemma topological_sort_sound {p : MigrationPlanner}
    {migrations sorted : List Migration}
    (hnodup : (migrations.map Migration.id).Nodup)
    (h : p.topological_sort migrations = Except.ok sorted) :
    IsTopoOrder migrations sorted := by
  rw [topological_sort_eq] at h
  by_cases hlen : (ts_result migrations).length ≠ migrations.length
  · rw [if_pos hlen] at h
    exact absurd h (by simp)
  · rw [if_neg hlen] at h
    have hres : sorted = ts_result migrations := by
      injection h with h1
      exact h1.symm
    subst hres
    have good := ts_result_good hnodup
    push_neg at hlen
    have hsub : (ts_result migrations).map Migration.id ⊆
        migrations.map Migration.id := by
      intro x hx
      obtain ⟨m, hm, rfl⟩ := List.mem_map.mp hx
      exact List.mem_map_of_mem _ (good.1 m hm)
    have hsp := List.subperm_of_subset good.2.1 hsub
    have hperm := hsp.perm_of_length_le (by simpa using le_of_eq hlen.symm)
    exact ⟨perm_of_ids_perm hnodup good.1 hperm, good.2.2.1⟩

/-- Completeness: when a topological order exists, the sort returns its loop
output (no cycle error). -/
lemma topological_sort_complete {p : MigrationPlanner}
    {migrations order : List Migration}
    (hnodup : (migrations.map Migration.id).Nodup)
    (horder : IsTopoOrder migrations order) :
    p.topological_sort migrations = Except.ok (ts_result migrations) := by
  have good := ts_result_good hnodup
  have hall : ∀ j, ∀ hj : j < order.length,
      (order.get ⟨j, hj⟩).id ∈ (ts_result migrations).map Migration.id := by
    intro j
    induction j using Nat.strong_induction_on with
    | _ j ih =>
        intro hj
        by_contra hnot
        have hm_mig : order.get ⟨j, hj⟩ ∈ migrations := by
          rw [List.get_eq_getElem]
          exact horder.1.mem_iff.mp (List.getElem_mem hj)
        have hn_ids : (order.get ⟨j, hj⟩).id ∈ migrations.map Migration.id :=
          List.mem_map_of_mem _ hm_mig
        obtain ⟨dep, hdep, hdepnot⟩ := good.2.2.2 _ hn_ids hnot
        have hdeps : deps_of migrations (order.get ⟨j, hj⟩).id =
            deps_in migrations (order.get ⟨j, hj⟩) := by
          unfold deps_of
          rw [find?_id_unique hnodup hm_mig]
        rw [hdeps] at hdep
        have hmem := horder.2 j hj dep hdep
        obtain ⟨m2, hm2, hm2id⟩ := List.mem_map.mp hmem
        obtain ⟨i, hilt, hig⟩ := List.mem_iff_getElem.mp hm2
        have hitk : i < j := by
          have h2 := hilt
          rw [List.length_take] at h2
          omega
        have hio : i < order.length := by
          have h2 := hilt
          rw [List.length_take] at h2
          omega
        have hgi : (order.take j)[i] = order[i] := List.getElem_take order
        have hij : (order.get ⟨i, hio⟩).id = dep := by
          rw [List.get_eq_getElem, ← hgi, hig, hm2id]
        exact hdepnot (hij ▸ ih i hitk hio)
  have hsup : migrations.map Migration.id ⊆
      (ts_result migrations).map Migration.id := by
    intro n hn
    obtain ⟨m, hm, rfl⟩ := List.mem_map.mp hn
    have hmo : m ∈ order := horder.1.mem_iff.mpr hm
    obtain ⟨i, hilt, hig⟩ := List.mem_iff_getElem.mp hmo
    have h2 := hall i hilt
    rw [List.get_eq_getElem, hig] at h2
    exact h2
  have hsp := List.subperm_of_subset hnodup hsup
  have hge : migrations.length ≤ (ts_result migrations).length := by
    simpa using hsp.length_le
  have hle : (ts_result migrations).length ≤ migrations.length := by
    have hsub2 : (ts_result migrations).map Migration.id ⊆
        migrations.map Migration.id := by
      intro x hx
      obtain ⟨m, hm, rfl⟩ := List.mem_map.mp hx
      exact List.mem_map_of_mem _ (good.1 m hm)
    simpa using (List.subperm_of_subset good.2.1 hsub2).length_le
  rw [topological_sort_eq]
  rw [if_neg (fun hne => hne (Nat.le_antisymm hle hge))]

/-- The sort only ever fails with the fixed cycle message. -/
lemma topological_sort_error_msg {p : MigrationPlanner}
    {migrations : List Migration} {e : String}
    (h : p.topological_sort migrations = Except.error e) :
    e = "Circular dependency detected in migrations" := by
  rw [topological_sort_eq] at h
  by_cases hlen : (ts_result migrations).length ≠ migrations.length
  · rw [if_pos hlen] at h
    injection h with h1
    exact h1.symm
  · rw [if_neg hlen] at h
    exact absurd h (by simp)

/-- Mapping to Up-planned entries and back is the identity. -/
lemma map_up_migration : ∀ l : List Migration,
    (l.map (fun m =>
      ({ migration := m, direction := MigrationDirection.Up } : PlannedMigration))).map
        PlannedMigration.migration = l := by
  intro l
  induction l with
  | nil => rfl
  | cons a l ih => simp [ih]

/-- Claim C3: when the pending dependency subgraph admits a topological order
(the acyclic case), `plan_up` succeeds with a plan listing each pending
migration once as an Up entry, every pending dependency strictly earlier
(dependencies on applied migrations are ignored by `deps_in`); when no
topological order exists, `plan_up` fails with the cycle error. -/
theorem plan_up_topological (p : MigrationPlanner) (applied : List MigrationRecord)
    (hnodup : (p.migrations.map Migration.id).Nodup) :
    (∀ order, IsTopoOrder (pending_of p applied) order →
      ∃ plan, p.plan_up applied none = Except.ok plan ∧
        IsTopoOrder (pending_of p applied) (plan.map PlannedMigration.migration) ∧
        ∀ pm ∈ plan, pm.direction = MigrationDirection.Up) ∧
    ((¬ ∃ order, IsTopoOrder (pending_of p applied) order) →
      p.plan_up applied none =
        Except.error "Circular dependency detected in migrations") := by
  have hpend : ((pending_of p applied).map Migration.id).Nodup := by
    unfold pending_of
    exact hnodup.sublist ((List.filter_sublist _).map _)
  constructor
  · intro order horder
    by_cases hemp : (pending_of p applied).isEmpty = true
    · have hpe : pending_of p applied = [] := List.isEmpty_iff.mp hemp
      refine ⟨[], ?_, ?_, by simp⟩
      · simp only [MigrationPlanner.plan_up]
        rw [if_pos hemp]
      · constructor
        · rw [hpe]
          exact List.Perm.refl []
        · intro i hi
          exact absurd hi (by simp)
    · have hsorted : p.topological_sort (pending_of p applied) =
          Except.ok (ts_result (pending_of p applied)) :=
        topological_sort_complete hpend horder
      refine ⟨(ts_result (pending_of p applied)).map
          (fun m => { migration := m, direction := MigrationDirection.Up }),
        ?_, ?_, ?_⟩
      · simp only [MigrationPlanner.plan_up]
        rw [if_neg hemp, hsorted]
      · rw [map_up_migration]
        exact topological_sort_sound hpend hsorted
      · intro pm hpm
        obtain ⟨m, _, rfl⟩ := List.mem_map.mp hpm
        rfl
  · intro hnone
    have hne : ¬ (pending_of p applied).isEmpty = true := by
      intro hemp
      apply hnone
      refine ⟨[], ?_, ?_⟩
      · have hpe : pending_of p applied = [] := List.isEmpty_iff.mp hemp
        rw [hpe]
      · intro i hi
        exact absurd hi (by simp)
    cases hts : p.topological_sort (pending_of p applied) with
    | ok sorted =>
        exact absurd ⟨sorted, topological_sort_sound hpend hts⟩ hnone
    | error e =>
        have hmsg := topological_sort_error_msg hts
        simp only [MigrationPlanner.plan_up]
        rw [if_neg hne, hts, hmsg]

/-- A migration with the given id and dependency list, for the C3 witness. -/
def c3_m (id : String) (deps : List String) : Migration :=
  { Migration.mk_new id id with dependencies := deps }

/-- Planner for the C3 witness: a three-migration dependency chain. -/
def c3_planner : MigrationPlanner :=
  { migrations := [c3_m "001" [], c3_m "002" ["001"], c3_m "003" ["002"]]
    dependencies := [("001", []), ("002", ["001"]), ("003", ["002"])] }

/-- Witness for C3: the three-migration chain admits a topological order, so
`plan_up` produces a dependency-respecting Up plan. -/
theorem plan_up_topological_witness :
    ∃ plan, c3_planner.plan_up [] none = Except.ok plan ∧
      IsTopoOrder (pending_of c3_planner []) (plan.map PlannedMigration.migration) ∧
      ∀ pm ∈ plan, pm.direction = MigrationDirection.Up :=
  (plan_up_topological c3_planner [] (by decide)).1 (pending_of c3_planner [])
    ⟨List.Perm.refl _, by decide⟩

/-- Result of one migration execution (`MigrationResult`, migration.rs lines
180-193). -/
structure MigrationResult where
  migration_id : String
  direction : MigrationDirection
  success : Bool
  error : Option String
  duration_ms : Nat
  statements_executed : Nat
deriving DecidableEq, Repr

/-- A migration lock (`MigrationLock`, history.rs lines 100-112);
`Uuid::new_v4` is modelled by a fixed identifier and `Utc::now` by 0. -/
structure MigrationLock where
  id : String
  acquired_at : Nat
deriving DecidableEq, Repr

/-- Constructor `MigrationLock::new`. -/
def MigrationLock.mk_new : MigrationLock :=
  { id := "00000000-0000-4000-8000-000000000000", acquired_at := 0 }

/-- Constructor `MigrationRecord::new` (history.rs lines 35-47). -/
def MigrationRecord.mk_new (id name : String) : MigrationRecord :=
  { id := id, name := name, app := none, status := MigrationStatus.Pending
    checksum := "", applied_at := 0, duration_ms := 0, statements_count := 0
    error_message := none }

/-- Builder `MigrationRecord::applied`. -/
def MigrationRecord.applied (r : MigrationRecord)
    (duration_ms statements_count : Nat) : MigrationRecord :=
  { r with
      status := MigrationStatus.Applied, duration_ms := duration_ms,
      statements_count := statements_count, applied_at := 0 }

/-- Builder `MigrationRecord::failed`. -/
def MigrationRecord.failed (r : MigrationRecord) (error : String) : MigrationRecord :=
  { r with
      status := MigrationStatus.Failed, error_message := some error,
      applied_at := 0 }

/-- One call dispatched to the `SqlExecutor` by the migration executor. -/
inductive SqlCall where
  | execute (sql : String)
  | begin_transaction
  | commit_transaction
  | rollback_transaction
deriving DecidableEq, Repr

/-- A `SqlExecutor` implementation, modelled by its response to each call;
the calls actually dispatched are logged in `ExecState.sqlLog`. -/
structure SqlExec where
  execute : String → Except String Nat
  begin_transaction : Except String Unit
  commit_transaction : Except String Unit
  rollback_transaction : Except String Unit

/-- The mutable environment of an execution: the `InMemoryHistory` state (its
`records` map as a keyed association list and its `locked` flag) together
with the log of calls dispatched to the `SqlExecutor`. -/
structure ExecState where
  records : List (String × MigrationRecord)
  locked : Option String
  sqlLog : List SqlCall
deriving DecidableEq, Repr

/-- `InMemoryHistory::record_applied` (history.rs lines 163-167): HashMap
insert, replacing an existing key or appending a fresh one. -/
def InMemoryHistory.record_applied (record : MigrationRecord) (s : ExecState) :
    ExecState :=
  if s.records.any (fun q => q.1 == record.id) then
    { s with
        records := s.records.map
          (fun q => if q.1 == record.id then (record.id, record) else q) }
  else
    { s with records := s.records ++ [(record.id, record)] }

/-- `InMemoryHistory::record_rollback` (history.rs lines 169-175). -/
def InMemoryHistory.record_rollback (migration_id : String) (s : ExecState) :
    ExecState :=
  { s with
      records := s.records.map
        (fun q => if q.1 == migration_id then
          (q.1, { q.2 with status := MigrationStatus.RolledBack }) else q) }

/-- `InMemoryHistory::acquire_lock` (history.rs lines 182-192); `ChakraError`
is modelled by its message. -/
def InMemoryHistory.acquire_lock (s : ExecState) :
    Except String (MigrationLock × ExecState) :=
  match s.locked with
  | some _ => Except.error "Migration lock already held"
  | none =>
      let lock := MigrationLock.mk_new
      Except.ok (lock, { s with locked := some lock.id })

/-- `InMemoryHistory::release_lock` (history.rs lines 194-200). -/
def InMemoryHistory.release_lock (lock : MigrationLock) (s : ExecState) :
    ExecState :=
  if s.locked == some lock.id then { s with locked := none } else s

/-- The migration executor (`MigrationExecutor`, executor.rs lines 32-43);
`Instant::now`/`elapsed` are modelled as 0. -/
structure MigrationExecutor where
  sql : SqlExec
  ddl_generator : DdlGen DdlStatement
  use_transactions : Bool
  dry_run : Bool

/-- Constructor `MigrationExecutor::new`. -/
def MigrationExecutor.mk_new (sql : SqlExec) (g : DdlGen DdlStatement) :
    MigrationExecutor :=
  { sql := sql, ddl_generator := g, use_transactions := true, dry_run := false }

/-- Builder `MigrationExecutor::use_transactions`. -/
def MigrationExecutor.set_use_transactions (ex : MigrationExecutor) (b : Bool) :
    MigrationExecutor :=
  { ex with use_transactions := b }

/-- Builder `MigrationExecutor::dry_run`. -/
def MigrationExecutor.set_dry_run (ex : MigrationExecutor) (b : Bool) :
    MigrationExecutor :=
  { ex with dry_run := b }

/-- `MigrationExecutor::operation_to_statements` (executor.rs lines
239-324). -/
def MigrationExecutor.operation_to_statements (ex : MigrationExecutor)
    (op : MigrationOperation) (direction : MigrationDirection) :
    List DdlStatement :=
  match op, direction with
  | MigrationOperation.CreateTable t, MigrationDirection.Up =>
      [ex.ddl_generator.create_table t]
  | MigrationOperation.CreateTable t, MigrationDirection.Down =>
      [ex.ddl_generator.drop_table t.name true]
  | MigrationOperation.DropTable nm cascade, MigrationDirection.Up =>
      [ex.ddl_generator.drop_table nm cascade]
  | MigrationOperation.RenameTable f t, MigrationDirection.Up =>
      [ex.ddl_generator.rename_table f t]
  | MigrationOperation.RenameTable f t, MigrationDirection.Down =>
      [ex.ddl_generator.rename_table t f]
  | MigrationOperation.AddColumn tbl col, MigrationDirection.Up =>
      [ex.ddl_generator.add_column tbl col]
  | MigrationOperation.AddColumn tbl col, MigrationDirection.Down =>
      [ex.ddl_generator.drop_column tbl col.name]
  | MigrationOperation.DropColumn tbl col, MigrationDirection.Up =>
      [ex.ddl_generator.drop_column tbl col]
  | MigrationOperation.AlterColumn tbl f t, MigrationDirection.Up =>
      ex.ddl_generator.alter_column tbl f t
  | MigrationOperation.AlterColumn tbl f t, MigrationDirection.Down =>
      ex.ddl_generator.alter_column tbl t f
  | MigrationOperation.RenameColumn tbl f t, MigrationDirection.Up =>
      [ex.ddl_generator.rename_column tbl f t]
  | MigrationOperation.RenameColumn tbl f t, MigrationDirection.Down =>
      [ex.ddl_generator.rename_column tbl t f]
  | MigrationOperation.CreateIndex tbl idx, MigrationDirection.Up =>
      [ex.ddl_generator.create_index tbl idx]
  | MigrationOperation.CreateIndex _ idx, MigrationDirection.Down =>
      [ex.ddl_generator.drop_index idx.name]
  | MigrationOperation.DropIndex nm, MigrationDirection.Up =>
      [ex.ddl_generator.drop_index nm]
  | MigrationOperation.AddConstraint tbl c, MigrationDirection.Up =>
      [ex.ddl_generator.add_constraint tbl c]
  | MigrationOperation.AddConstraint tbl c, MigrationDirection.Down =>
      [ex.ddl_generator.drop_constraint tbl c.name]
  | MigrationOperation.DropConstraint tbl nm, MigrationDirection.Up =>
      [ex.ddl_generator.drop_constraint tbl nm]
  | MigrationOperation.AddForeignKey tbl fk, MigrationDirection.Up =>
      [ex.ddl_generator.add_foreign_key tbl fk]
  | MigrationOperation.AddForeignKey tbl fk, MigrationDirection.Down =>
      (match fk.name with
       | some n => [ex.ddl_generator.drop_foreign_key tbl n]
       | none => [ex.ddl_generator.drop_foreign_key tbl
           ("fk_" ++ tbl ++ "_" ++ String.intercalate "_" fk.columns)])
  | MigrationOperation.DropForeignKey tbl nm, MigrationDirection.Up =>
      [ex.ddl_generator.drop_foreign_key tbl nm]
  | MigrationOperation.RawSql up _, MigrationDirection.Up =>
      [DdlStatement.mk_new up]
  | MigrationOperation.RawSql _ down, MigrationDirection.Down =>
      (match down with
       | some sql => [DdlStatement.mk_new sql]
       | none => [])
  | _, _ => []

/-- `MigrationExecutor::generate_up_statements` (executor.rs lines 205-219). -/
def MigrationExecutor.generate_up_statements (ex : MigrationExecutor)
    (m : Migration) : List DdlStatement :=
  (match m.raw_sql_up with
   | some sql => [DdlStatement.mk_new sql]
   | none => []) ++
  (m.operations.map
    (fun op => ex.operation_to_statements op MigrationDirection.Up)).flatten

/-- `MigrationExecutor::generate_down_statements` (executor.rs lines
222-236): raw down-SQL first, then the operations reversed. -/
def MigrationExecutor.generate_down_statements (ex : MigrationExecutor)
    (m : Migration) : List DdlStatement :=
  (match m.raw_sql_down with
   | some sql => [DdlStatement.mk_new sql]
   | none => []) ++
  (m.operations.reverse.map
    (fun op => ex.operation_to_statements op MigrationDirection.Down)).flatten

/-- Dispatch one `execute` call: the call is logged whatever its outcome. -/
def dispatch_execute (ex : MigrationExecutor) (sql : String) (s : ExecState) :
    Except String Nat × ExecState :=
  (ex.sql.execute sql, { s with sqlLog := s.sqlLog ++ [SqlCall.execute sql] })

/-- Dispatch `begin_transaction`. -/
def dispatch_begin (ex : MigrationExecutor) (s : ExecState) :
    Except String Unit × ExecState :=
  (ex.sql.begin_transaction,
   { s with sqlLog := s.sqlLog ++ [SqlCall.begin_transaction] })

/-- Dispatch `commit_transaction`. -/
def dispatch_commit (ex : MigrationExecutor) (s : ExecState) :
    Except String Unit × ExecState :=
  (ex.sql.commit_transaction,
   { s with sqlLog := s.sqlLog ++ [SqlCall.commit_transaction] })

/-- Dispatch `rollback_transaction`. -/
def dispatch_rollback (ex : MigrationExecutor) (s : ExecState) :
    Except String Unit × ExecState :=
  (ex.sql.rollback_transaction,
   { s with sqlLog := s.sqlLog ++ [SqlCall.rollback_transaction] })

/-- Statement loop of `execute_with_transaction` (executor.rs lines 330-344):
on a statement failure the transaction is rolled back and the statement
error returned (a rollback failure takes precedence, by the `?`). -/
def ewt_loop (ex : MigrationExecutor) :
    List DdlStatement → Nat → ExecState → Except String Nat × ExecState
  | [], executed, s =>
      let p := dispatch_commit ex s
      (match p.1 with
       | Except.error e => (Except.error e, p.2)
       | Except.ok _ => (Except.ok executed, p.2))
  | stmt :: rest, executed, s =>
      let p := dispatch_execute ex stmt.sql s
      (match p.1 with
       | Except.ok _ => ewt_loop ex rest (executed + 1) p.2
       | Except.error e =>
          let q := dispatch_rollback ex p.2
          (match q.1 with
           | Except.error e2 => (Except.error e2, q.2)
           | Except.ok _ => (Except.error e, q.2)))

/-- `MigrationExecutor::execute_with_transaction` (executor.rs lines
327-345). -/
def MigrationExecutor.execute_with_transaction (ex : MigrationExecutor)
    (statements : List DdlStatement) (s : ExecState) :
    Except String Nat × ExecState :=
  let p := dispatch_begin ex s
  match p.1 with
  | Except.error e => (Except.error e, p.2)
  | Except.ok _ => ewt_loop ex statements 0 p.2

/-- `MigrationExecutor::execute_without_transaction` (executor.rs lines
348-356). -/
def ewot_loop (ex : MigrationExecutor) :
    List DdlStatement → Nat → ExecState → Except String Nat × ExecState
  | [], executed, s => (Except.ok executed, s)
  | stmt :: rest, executed, s =>
      let p := dispatch_execute ex stmt.sql s
      (match p.1 with
       | Except.ok _ => ewot_loop ex rest (executed + 1) p.2
       | Except.error e => (Except.error e, p.2))

/-- `MigrationExecutor::execute_one` (executor.rs lines 106-202).  In the
dry-run branch the statements are only logged by `tracing`, never
dispatched, and the result reports zero executed statements. -/
def MigrationExecutor.execute_one (ex : MigrationExecutor)
    (planned : PlannedMigration) (s : ExecState) : MigrationResult × ExecState :=
  let migration := planned.migration
  let direction := planned.direction
  let statements := match direction with
    | MigrationDirection.Up => ex.generate_up_statements migration
    | MigrationDirection.Down => ex.generate_down_statements migration
  if ex.dry_run then
    ({ migration_id := migration.id, direction := direction, success := true
       error := none, duration_ms := 0, statements_executed := 0 }, s)
  else
    let p := if ex.use_transactions then
        ex.execute_with_transaction statements s
      else ewot_loop ex statements 0 s
    match p.1 with
    | Except.ok count =>
        let record := (MigrationRecord.mk_new migration.id migration.name).applied 0 count
        let s2 := match direction with
          | MigrationDirection.Up => InMemoryHistory.record_applied record p.2
          | MigrationDirection.Down => InMemoryHistory.record_rollback migration.id p.2
        ({ migration_id := migration.id, direction := direction, success := true
           error := none, duration_ms := 0, statements_executed := count }, s2)
    | Except.error e =>
        let record := (MigrationRecord.mk_new migration.id migration.name).failed e
        let s2 := InMemoryHistory.record_applied record p.2
        ({ migration_id := migration.id, direction := direction, success := false
           error := some e, duration_ms := 0, statements_executed := 0 }, s2)

/-- Plan loop of `execute_plan` (executor.rs lines 86-95): stop after the
first failed migration. -/
def ep_loop (ex : MigrationExecutor) :
    List PlannedMigration → List MigrationResult → ExecState →
      List MigrationResult × ExecState
  | [], results, s => (results, s)
  | planned :: rest, results, s =>
      let p := ex.execute_one planned s
      if p.1.success then ep_loop ex rest (results ++ [p.1]) p.2
      else (results ++ [p.1], p.2)

/-- `MigrationExecutor::execute_plan` (executor.rs lines 74-103): acquire the
lock (returning no results if that fails), run the plan, release the lock. -/
def MigrationExecutor.execute_plan (ex : MigrationExecutor)
    (plan : List PlannedMigration) (s : ExecState) :
    List MigrationResult × ExecState :=
  match InMemoryHistory.acquire_lock s with
  | Except.error _ => ([], s)
  | Except.ok (lock, s1) =>
      let p := ep_loop ex plan [] s1
      (p.1, InMemoryHistory.release_lock lock p.2)

/-- Claim C5: when the migration lock is already held, `execute_plan` runs no
migration and returns no results, the state — history records, lock, and the
log of SQL dispatched to the executor — is left untouched, and the lock
acquisition fails with the structured "Migration lock already held" error. -/
theorem execute_plan_lock_held (ex : MigrationExecutor)
    (plan : List PlannedMigration) (s : ExecState) (owner : String)
    (h : s.locked = some owner) :
    ex.execute_plan plan s = ([], s) ∧
    (ex.execute_plan plan s).2.records = s.records ∧
    (ex.execute_plan plan s).2.sqlLog = s.sqlLog ∧
    InMemoryHistory.acquire_lock s = Except.error "Migration lock already held" := by
  have ha : InMemoryHistory.acquire_lock s =
      Except.error "Migration lock already held" := by
    unfold InMemoryHistory.acquire_lock
    rw [h]
  have hp : ex.execute_plan plan s = ([], s) := by
    unfold MigrationExecutor.execute_plan
    rw [ha]
  exact ⟨hp, by rw [hp], by rw [hp], ha⟩

/-- Mock SQL executor whose calls always succeed (as in the executor tests). -/
def mock_sql_exec : SqlExec :=
  { execute := fun _ => Except.ok 1, begin_transaction := Except.ok ()
    commit_transaction := Except.ok (), rollback_transaction := Except.ok () }

/-- Planned migration for the executor witnesses. -/
def c5_planned : PlannedMigration :=
  { migration := Migration.mk_new "001" "init", direction := MigrationDirection.Up }

/-- State with the lock already held by another session. -/
def c5_state : ExecState :=
  { records := [], locked := some "11111111-2222-4333-8444-555555555555", sqlLog := [] }

/-- Witness for C5: with the lock held, the concrete executor returns no
results and leaves the state unchanged. -/
theorem execute_plan_lock_held_witness :
    (MigrationExecutor.mk_new mock_sql_exec postgresGen).execute_plan
        [c5_planned] c5_state = ([], c5_state) ∧
    ((MigrationExecutor.mk_new mock_sql_exec postgresGen).execute_plan
        [c5_planned] c5_state).2.records = c5_state.records ∧
    ((MigrationExecutor.mk_new mock_sql_exec postgresGen).execute_plan
        [c5_planned] c5_state).2.sqlLog = c5_state.sqlLog ∧
    InMemoryHistory.acquire_lock c5_state =
      Except.error "Migration lock already held" :=
  execute_plan_lock_held (MigrationExecutor.mk_new mock_sql_exec postgresGen)
    [c5_planned] c5_state "11111111-2222-4333-8444-555555555555" rfl

/-- Claim C7: under dry-run the executor dispatches nothing to the SQL
executor, writes nothing to history (the state is returned unchanged), and
reports a successful result with zero executed statements. -/
theorem execute_one_dry_run (ex : MigrationExecutor)
    (planned : PlannedMigration) (s : ExecState) (h : ex.dry_run = true) :
    ex.execute_one planned s =
      ({ migration_id := planned.migration.id, direction := planned.direction
         success := true, error := none, duration_ms := 0
         statements_executed := 0 }, s) ∧
    (ex.execute_one planned s).2.sqlLog = s.sqlLog ∧
    (ex.execute_one planned s).2.records = s.records := by
  have h1 : ex.execute_one planned s =
      ({ migration_id := planned.migration.id, direction := planned.direction
         success := true, error := none, duration_ms := 0
         statements_executed := 0 }, s) := by
    unfold MigrationExecutor.execute_one
    rw [h]
    simp
  exact ⟨h1, by rw [h1], by rw [h1]⟩

/-- Executor with dry-run enabled, for the C7 witness. -/
def c7_executor : MigrationExecutor :=
  (MigrationExecutor.mk_new mock_sql_exec postgresGen).set_dry_run true

/-- State with some prior history, for the C7 witness. -/
def c7_state : ExecState :=
  { records := [("000", MigrationRecord.mk_new "000" "base")], locked := none
    sqlLog := [] }

/-- Witness for C7: the concrete dry-run executor returns success with zero
statements and an unchanged state. -/
theorem execute_one_dry_run_witness :
    c7_executor.execute_one c5_planned c7_state =
      ({ migration_id := "001", direction := MigrationDirection.Up
         success := true, error := none, duration_ms := 0
         statements_executed := 0 }, c7_state) ∧
    (c7_executor.execute_one c5_planned c7_state).2.sqlLog = c7_state.sqlLog ∧
    (c7_executor.execute_one c5_planned c7_state).2.records = c7_state.records :=
  execute_one_dry_run c7_executor c5_planned c7_state rfl
